import Mathlib

/-!
Verification of the netdash discovery engine (src/netdash/discovery.py,
src/netdash/config.py, src/netdash/utils.py) against its specification.

The Python code is shallowly embedded: pure fragments become Lean functions,
I/O results (ping answers, TCP probe answers, reverse-DNS answers, neighbor
tables, host addresses, environment variables, clock readings) become explicit
parameters, and Python dictionaries become insertion-ordered association
lists.  Machine integers in the source are plain Python ints, so they are
modelled as Nat / Int without wrap-around.  Every definition cites the source
lines it embeds.
-/

namespace Netdash

/-! ## Python-dict primitives

Python dicts preserve insertion order; assignment to an existing key keeps the
key's position and replaces the value, assignment to a new key appends.  These
two functions model exactly that, and are used for every dict in the source. -/

def dictGet {α : Type} : List (String × α) → String → Option α
  | [], _ => none
  | (k, v) :: t, key => if k = key then some v else dictGet t key

def dictSet {α : Type} : List (String × α) → String → α → List (String × α)
  | [], key, val => [(key, val)]
  | (k, v) :: t, key, val =>
    if k = key then (k, val) :: t else (k, v) :: dictSet t key val

/-! ## String primitives

Python string methods are modelled on the underlying character list so that
every definition reduces inside the kernel.  `str.lower()` / `str.upper()`
are used by the source only on ASCII data (MAC addresses, interface names,
neighbor states, device names), which `Char.toLower` / `Char.toUpper`
handle. -/

/-- Python `str.strip()`: drop leading and trailing whitespace. -/
def charsTrim (cs : List Char) : List Char :=
  ((cs.dropWhile Char.isWhitespace).reverse.dropWhile Char.isWhitespace).reverse

def strTrim (s : String) : String := String.mk (charsTrim s.data)

def strLower (s : String) : String := String.mk (s.data.map Char.toLower)

def strUpper (s : String) : String := String.mk (s.data.map Char.toUpper)

/-- Python `str.replace(old, new)` for one-character old/new (the source only
replaces "-" with ":"). -/
def strReplaceChar (pat rep : Char) (s : String) : String :=
  String.mk (s.data.map (fun c => if c = pat then rep else c))

/-- Python `str.startswith(p)`. -/
def strStartsWith (s p : String) : Bool :=
  p.data.isPrefixOf s.data

def splitOnCharAux (sep : Char) : List Char → List Char → List (List Char)
  | [], acc => [acc.reverse]
  | c :: cs, acc =>
    if c = sep then acc.reverse :: splitOnCharAux sep cs []
    else splitOnCharAux sep cs (c :: acc)

/-- Python `str.split(sep)` for a one-character separator (the source splits
on "."). -/
def strSplitOnChar (sep : Char) (s : String) : List String :=
  (splitOnCharAux sep s.data []).map String.mk

def charsContainsSub (sub : List Char) : List Char → Bool
  | [] => sub.isEmpty
  | c :: cs => sub.isPrefixOf (c :: cs) || charsContainsSub sub cs

/-- Python `sub in s` substring containment. -/
def strContainsSub (s sub : String) : Bool :=
  charsContainsSub sub.data s.data

/-- Python string `<=`: lexicographic by code point. -/
def charListLe : List Char → List Char → Bool
  | [], _ => true
  | _ :: _, [] => false
  | a :: s, b :: t =>
    if a.toNat < b.toNat then true
    else if b.toNat < a.toNat then false
    else charListLe s t

def strLe (a b : String) : Bool := charListLe a.data b.data

/-! ## utils.normalize_mac (src/netdash/utils.py lines 19-20)

`mac.strip().lower().replace("-", ":")`. -/

def normalize_mac (mac : String) : String :=
  strReplaceChar '-' ':' (strLower (strTrim mac))

/-! ## config.py: environment-driven knobs -/

/-- Python `int(...)` applied to an environment-variable string
(src/netdash/config.py line 106): surrounding whitespace is stripped, an
optional single sign is allowed, then decimal digits optionally separated by
single underscores.  Anything else raises ValueError, modelled as `none`.
(Python also accepts non-ASCII decimal digits and some exotic whitespace;
the environment strings the program reads are ASCII, and the claim's
conclusions do not depend on that corner.) -/
def pyIntDigits : List Char → Nat → Option Nat
  | [], acc => some acc
  | '_' :: c :: cs, acc =>
    if c.isDigit then pyIntDigits cs (acc * 10 + (c.toNat - 48)) else none
  | ['_'], _ => none
  | c :: cs, acc =>
    if c.isDigit then pyIntDigits cs (acc * 10 + (c.toNat - 48)) else none

def pyParseInt (s : String) : Option Int :=
  let t := charsTrim s.data
  let signAndRest : Bool × List Char :=
    match t with
    | '-' :: r => (true, r)
    | '+' :: r => (false, r)
    | r => (false, r)
  match signAndRest.2 with
  | [] => none
  | c :: cs =>
    if c.isDigit then
      (pyIntDigits cs (c.toNat - 48)).map
        (fun n => if signAndRest.1 then -(n : Int) else (n : Int))
    else none

/-- config.concurrency_from_env (src/netdash/config.py lines 101-111).
The environment lookup `os.environ.get(key)` is passed in as `env`. -/
def concurrency_from_env (env : Option String) (default : Int) : Int :=
  match env with
  | none => default
  | some v =>
    match pyParseInt v with
    | none => default
    | some parsed => if parsed ≤ 0 then default else parsed

/-- discovery._cap_concurrency (src/netdash/discovery.py lines 325-332):
on macOS the value is clamped to `mac_limit`, elsewhere passed through. -/
def _cap_concurrency (darwin : Bool) (value mac_limit : Int) : Int :=
  if darwin then min value mac_limit else value

/-! ## discovery.py data model -/

structure KnownDevice where
  name : String
  match_ip : Option String
  match_mac : Option String
  ports : List Nat
  notes : String
deriving DecidableEq

/-- Truthy `kd.match_ip` (Python treats `None` and `""` as false). -/
def kdIp (kd : KnownDevice) : Option String :=
  match kd.match_ip with
  | some s => if s = "" then none else some s
  | none => none

/-- `normalize_mac(kd.match_mac) if kd.match_mac else None`
(src/netdash/discovery.py lines 530, 1016, 1026). -/
def kdMac (kd : KnownDevice) : Option String :=
  match kd.match_mac with
  | some m => if m = "" then none else some (normalize_mac m)
  | none => none

/-! ## discovery.match_known (src/netdash/discovery.py lines 479-486) -/

/-- `normalize_mac(mac) if mac else None` (line 480). -/
def macNOf (mac : Option String) : Option String :=
  match mac with
  | some m => if m = "" then none else some (normalize_mac m)
  | none => none

/-- `k.match_ip and k.match_ip == ip` (line 482). -/
def ipMatches (k : KnownDevice) (ip : String) : Bool :=
  match k.match_ip with
  | some ki => ki ≠ "" && ki = ip
  | none => false

/-- `k.match_mac and mac_n and normalize_mac(k.match_mac) == mac_n` (line 484). -/
def macMatches (k : KnownDevice) (macN : Option String) : Bool :=
  match k.match_mac, macN with
  | some km, some mn => km ≠ "" && normalize_mac km = mn
  | _, _ => false

/-- The body of match_known's loop (lines 481-486): scan the configured list
in declaration order; for each device test the IP condition, then the MAC
condition; return the first device for which either holds. -/
def match_known : List KnownDevice → String → Option String → Option KnownDevice
  | [], _, _ => none
  | k :: ks, ip, mac =>
    if ipMatches k ip then some k
    else if macMatches k (macNOf mac) then some k
    else match_known ks ip mac

/-- A device matches the observed (ip, mac) pair if its IP condition or its
MAC condition holds — the disjunction tested for one device inside the loop. -/
def devMatches (k : KnownDevice) (ip : String) (mac : Option String) : Bool :=
  ipMatches k ip || macMatches k (macNOf mac)

/-! ## IPv4 addresses and networks

Addresses are modelled as their 32-bit numeric value (a Nat below 2^32);
networks as a base address plus prefix length, as in Python `ipaddress`. -/

structure Net where
  addr : Nat
  plen : Nat
deriving DecidableEq

/-- `net.num_addresses` = 2^(32 - prefixlen). -/
def netSize (n : Net) : Nat := 2 ^ (32 - n.plen)

/-- `net.network_address` — `IPv4Network(..., strict=False)` masks the host
bits away. -/
def netBase (n : Net) : Nat := n.addr / netSize n * netSize n

/-- Python `ip in net`: the top prefixlen bits agree. -/
def memNet (ip : Nat) (n : Net) : Bool :=
  ip / netSize n = n.addr / netSize n

/-- `IPv4Network(f"{ip}/24", strict=False)`: the /24 containing `ip`. -/
def host24 (ip : Nat) : Net := ⟨ip / 256 * 256, 24⟩

/-- Parse one dotted-quad octet the way `ipaddress.IPv4Address` does: decimal
digits only, value ≤ 255, no leading zeros. -/
def parseOctet (s : String) : Option Nat :=
  let cs := s.data
  if cs = [] then none
  else if ¬ cs.all Char.isDigit then none
  else if 1 < cs.length ∧ cs.head? = some '0' then none
  else
    let v := cs.foldl (fun a c => a * 10 + (c.toNat - 48)) 0
    if v ≤ 255 then some v else none

/-- `ipaddress.IPv4Address(s)` / the IPv4 case of `ipaddress.ip_address(s)`:
exactly four octets.  Failure (including IPv6 input) is `none`. -/
def parseIPv4 (s : String) : Option Nat :=
  match (strSplitOnChar '.' s).map parseOctet with
  | [some a, some b, some c, some d] => some (((a * 256 + b) * 256 + c) * 256 + d)
  | _ => none

/-- discovery._is_valid_host_ip (src/netdash/discovery.py lines 311-322).
The accepted set: parses as IPv4, not multicast (224/4), not loopback
(127/8), not unspecified (0.0.0.0), not link-local (169.254/16), not
reserved (240/4, which contains 255.255.255.255), and `is_private or
is_global`.  In Python's ipaddress every IPv4 address is private or global
except the shared range 100.64.0.0/10, so the last conjunct excludes exactly
that range; the two explicit string comparisons of the source are subsumed
by the unspecified and reserved checks. -/
def isValidHostIp (s : String) : Bool :=
  match parseIPv4 s with
  | none => false
  | some v =>
    let a := v / 16777216
    let b := v / 65536 % 256
    ¬ (224 ≤ a ∧ a ≤ 239) ∧
    a ≠ 127 ∧
    v ≠ 0 ∧
    ¬ (a = 169 ∧ b = 254) ∧
    a < 240 ∧
    ¬ (a = 100 ∧ 64 ≤ b ∧ b ≤ 127)

/-! ## discovery._is_tunnel_iface (src/netdash/discovery.py lines 64-70) -/

def tunnelNamePrefixes : List String :=
  ["utun", "tun", "tap", "wg", "tailscale", "ts", "vpn", "ppp"]

def linkNamePrefixes : List String :=
  ["awdl", "llw", "p2p", "bridge"]

def isTunnelIface (name : String) : Bool :=
  let nl := strLower name
  if nl = "" then false
  else tunnelNamePrefixes.any (fun p => strStartsWith nl p) ||
       linkNamePrefixes.any (fun p => strStartsWith nl p)

/-! ## discovery._preferred_sweep_network (src/netdash/discovery.py lines 101-140)

The string inputs are parsed inside the source with try/except‑continue;
unparseable host strings are skipped and an unparseable gateway falls through
to the networks branch, so the inputs are modelled already parsed: `hostIps`
lists the parseable host addresses in order, `gatewayIp` is the parsed
gateway or `none`. -/

/-- `_tighten` (lines 106-109): keep the network if its prefix is at least
/24, else replace it with the /24 anchored on the given address. -/
def tighten (n : Net) (ip : Nat) : Net :=
  if 24 ≤ n.plen then n else host24 ip

/-- `sorted(networks, key=lambda n: n.num_addresses)[0]` — Python's sort is
stable, so this is the first network of minimal address count. -/
def minByNumAddresses : List Net → Option Net
  | [] => none
  | n :: t => some (t.foldl (fun best x => if netSize x < netSize best then x else best) n)

/-- _preferred_sweep_network: note that only the FIRST (parseable) host
address is ever consulted — the `return` on line 125 sits inside the
`for ip_str in host_ips` loop — and that a present gateway never falls
through to the smallest-network branch. -/
def preferredSweepNetwork (networks : List Net) (gatewayIp : Option Nat)
    (hostIps : List Nat) : Option Net :=
  match hostIps with
  | hip :: _ =>
    (match networks.find? (fun n => memNet hip n) with
     | some n => some (tighten n hip)
     | none => some (host24 hip))
  | [] =>
    match gatewayIp with
    | some gw =>
      (match networks.find? (fun n => memNet gw n) with
       | some n => some (tighten n gw)
       | none => some (host24 gw))
    | none => minByNumAddresses networks

/-! ## Neighbor entries (src/netdash/discovery.py lines 392-476)

get_neighbors returns a list of dicts with keys ip, mac, state and (on unix)
iface, de-duplicated by IP (`{n["ip"]: n for n in neighbors}.values()`).
An absent or empty MAC is modelled as `""` (both are falsy in the source). -/

structure Neighbor where
  ip : String
  mac : String
  state : String
  ifname : Option String
deriving DecidableEq

/-! ## Proxy-ARP detection and filtering (src/netdash/discovery.py lines 729-753) -/

/-- `mac_ip_counts[mac]` (lines 730-735): the ips of all entries carrying
this (truthy) mac, in table order. -/
def macBackedIps (neighbors : List Neighbor) (m : String) : List String :=
  (neighbors.filter (fun n => n.mac = m ∧ n.mac ≠ "" ∧ n.ip ≠ "")).map (fun n => n.ip)

/-- `mac in proxy_arp_macs` (lines 737-741, PROXY_ARP_THRESHOLD = 10): the
mac occurs with at least 10 ips.  An empty mac is never a dict key, and
indeed `macBackedIps` is empty for it. -/
def isProxyArpMac (neighbors : List Neighbor) (m : String) : Bool :=
  10 ≤ (macBackedIps neighbors m).length

/-- Lines 745-750: keep an entry iff its mac is not a proxy-ARP mac or its ip
equals the gateway ip.  (The source skips the filter when no proxy macs were
found, which is the identity map in that case.) -/
def filterProxyArp (neighbors : List Neighbor) (gatewayIp : Option String) :
    List Neighbor :=
  neighbors.filter (fun n => ¬ isProxyArpMac neighbors n.mac ∨ some n.ip = gatewayIp)

/-! ## Candidate seeding (src/netdash/discovery.py lines 755-789)

The candidate set immediately before sweep construction: the gateway (when
valid) plus every filtered neighbor entry that passes the validity,
sweep-network, mac, tunnel-interface and state checks.  Returned as the list
of admitted ips; only membership is used downstream. -/

def seedCandidatesLoop (windows : Bool) (gatewayIp : Option String)
    (sweepNet : Option Net) : List Neighbor → List String
  | [] => []
  | n :: t =>
    let rest := seedCandidatesLoop windows gatewayIp sweepNet t
    if n.ip = "" ∨ ¬ isValidHostIp n.ip then rest
    else
      let inSweep : Bool :=
        match sweepNet with
        | none => true
        | some net =>
          if some n.ip = gatewayIp then true
          else
            match parseIPv4 n.ip with
            | none => false
            | some v => memNet v net
      if ¬ inSweep then rest
      else if ¬ windows ∧ n.mac = "" then rest
      else if (match n.ifname with | some nm => isTunnelIface nm | none => false) then rest
      else if strUpper n.state ≠ "FAILED" ∧ strUpper n.state ≠ "INCOMPLETE"
      then n.ip :: rest
      else rest

def preSweepCandidates (windows : Bool) (gatewayIp : Option String)
    (sweepNet : Option Net) (neighbors : List Neighbor) : List String :=
  (match gatewayIp with
   | some gw => if gw ≠ "" ∧ isValidHostIp gw then [gw] else []
   | none => []) ++ seedCandidatesLoop windows gatewayIp sweepNet neighbors

/-! ## Sweep-list construction (src/netdash/discovery.py lines 791-803) -/

/-- `net.hosts()`: all usable host addresses — for /32 the single address,
for /31 both, otherwise everything strictly between network and broadcast. -/
def netHosts (n : Net) : List Nat :=
  if n.plen = 32 then [netBase n]
  else if n.plen = 31 then [netBase n, netBase n + 1]
  else (List.range (netSize n - 2)).map (fun i => netBase n + 1 + i)

/-- `str(host)` for an address value. -/
def ipToStr (v : Nat) : String :=
  toString (v / 16777216) ++ "." ++ toString (v / 65536 % 256) ++ "." ++
    toString (v / 256 % 256) ++ "." ++ toString (v % 256)

/-- The `for host in net.hosts()` loop (lines 796-803): append hosts not in
the candidate set, counting appends, and break as soon as the count reaches
`max_hosts` — the break test runs after every iteration, including ones that
appended. -/
def sweepLoop (candidates : List String) (maxHosts : Int) :
    List String → Int → List String
  | [], _ => []
  | h :: t, count =>
    if ¬ h ∈ candidates then
      if count + 1 ≥ maxHosts then [h]
      else h :: sweepLoop candidates maxHosts t (count + 1)
    else
      if count ≥ maxHosts then []
      else sweepLoop candidates maxHosts t count

/-- Lines 791-803: the sweep list is built only in bounded_sweep mode with
detected networks and a preferred sweep network. -/
def buildSweep (mode : String) (networksNonempty : Bool) (sweepNet : Option Net)
    (maxHosts : Int) (candidates : List String) : List String :=
  if mode = "bounded_sweep" ∧ networksNonempty then
    match sweepNet with
    | some net => sweepLoop candidates maxHosts ((netHosts net).map ipToStr) 0
    | none => []
  else []

/-- Lines 625-629: `max_hosts = int(cfg)`, then `min(max_hosts, 64)` in fast
mode. -/
def effectiveMaxHosts (fast : Bool) (cfgMax : Int) : Int :=
  if fast then min cfgMax 64 else cfgMax

/-! ## Transparent-proxy detection (src/netdash/discovery.py lines 860-930)

`probeHit ip` stands for `any(check_ports(ip, default_ports).values())` — the
TCP answers are an oracle.  The function returns the final
`transparent_proxy_detected` flag (the candidate purge on lines 915-928 never
resets it), the accumulated `port_only_hits` before that purge, and the list
of ips that were port-probed. -/

def sampleStepOf (nonPing : List String) : Nat := nonPing.length / 20

/-- `[non_ping_ips[i * step] for i in range(SAMPLE_SIZE)]` (lines 884-885). -/
def sampleIps (nonPing : List String) : List String :=
  (List.range 20).map (fun i => nonPing.getD (i * sampleStepOf nonPing) "")

def transparentPhase (fast : Bool) (defaultPortsNonempty : Bool) (sweepLen : Nat)
    (nonPing : List String) (probeHit : String → Bool) : Bool × Nat × List String :=
  if nonPing ≠ [] ∧ ¬ fast ∧ defaultPortsNonempty then
    let firstStage : Bool × Nat × List String :=
      if 40 < nonPing.length then
        let sample := sampleIps nonPing
        let sHits := (sample.filter probeHit).length
        if 16 < sHits then (true, sHits, sample)
        else
          let remaining := nonPing.filter (fun ip => ¬ ip ∈ sample)
          (false, sHits + (remaining.filter probeHit).length, sample ++ remaining)
      else (false, (nonPing.filter probeHit).length, nonPing)
    let hits := firstStage.2.1
    let lateDetect : Bool := 2 * hits > sweepLen ∧ hits > 20
    (firstStage.1 || lateDetect, hits, firstStage.2.2)
  else (false, 0, [])

/-! ## Per-candidate enrichment (src/netdash/discovery.py lines 947-1002)

The `enrich` coroutine, with its I/O as oracles: `dnsOracle` for
reverse_dns_async, `portOracle ip p` for the result of a TCP probe of port p,
`pingOracle` for a fresh ping.  `pingResults` is the dict of sweep ping
outcomes (`ping_results[ip] = ok` is recorded for every swept ip whether or
not the ping succeeded, line 816). -/

structure Discovered where
  ip : String
  name : String
  mac : Option String
  known : Bool
  notes : String
  ping : Bool
  ports : List (Nat × Bool)
  up : Bool
  ifname : Option String
  conn_type : String
  is_host : Bool
deriving DecidableEq

def enrichDevice (fast : Bool) (known : List KnownDevice) (defaultPorts : List Nat)
    (gatewayIp : Option String) (hostIpsAll : List String) (darwin : Bool)
    (pingResults : List (String × Bool))
    (macByIp : List (String × Option String)) (ifaceByIp : List (String × String))
    (dnsOracle : String → Option String) (portOracle : String → Nat → Bool)
    (pingOracle : String → Bool) (ip : String) : Discovered :=
  let mac : Option String :=
    match dictGet macByIp ip with
    | some v => v
    | none => none
  let kd := match_known known ip mac
  let dns_name : Option String := if fast then none else dnsOracle ip
  let name0 :=
    match kd with
    | some k => k.name
    | none => match dns_name with
      | some d => if d = "" then ip else d
      | none => ip
  let ports :=
    match kd with
    | some k => if k.ports ≠ [] then k.ports else defaultPorts
    | none => defaultPorts
  let port_status : List (Nat × Bool) :=
    if fast then [] else ports.map (fun p => (p, portOracle ip p))
  let ping_up : Bool :=
    if fast then (dictGet pingResults ip).isSome
    else
      match dictGet pingResults ip with
      | some b => b
      | none => pingOracle ip
  let is_up : Bool := if fast then ping_up else ping_up || port_status.any (fun pb => pb.2)
  let ifc := dictGet ifaceByIp ip
  let conn_type :=
    match ifc with
    | some s =>
      if s = "" then "Wired"
      else
        let sl := strLower s
        if strStartsWith sl "w" || strContainsSub sl "air" || strContainsSub sl "wireless"
        then "Wireless"
        else if sl = "en0" ∧ darwin then "Wireless"
        else "Wired"
    | none => "Wired"
  let name :=
    match gatewayIp with
    | some g => if g ≠ "" ∧ ip = g then "Gateway (" ++ ip ++ ")" else name0
    | none => name0
  let is_host : Bool := decide (ip ∈ hostIpsAll) || decide (ip = "127.0.0.1")
  { ip := ip, name := name, mac := mac, known := kd.isSome,
    notes := (match kd with | some k => k.notes | none => ""),
    ping := ping_up, ports := port_status, up := is_up,
    ifname := ifc, conn_type := conn_type, is_host := is_host }

/-! ## Device grouping and merge (src/netdash/discovery.py lines 1006-1185)

The interface dicts of the source carry keys ip, mac, ping, ports, up, type,
original_name and — only when written by the discovered-device fold —
conn_type and iface; the two latter are `Option`-wrapped to model their
absence in known-device seeds.  The extra `observed` field is a ghost marker
recording provenance: `true` exactly on interfaces created for an enriched
(observed) candidate IP or for a configured IP owned by the host machine —
the two events on which the source flips `missing` to False (lines
1041-1044 and 1123-1124).  It influences no computation.

`_base_name` (lines 281-286) is regex-based string normalization; the
grouping logic only ever applies it, so it is passed in as the function
parameter `bnf`, and `socket.gethostname()` (line 1106) as `hostname`. -/

structure Iface where
  ip : String
  mac : Option String
  ping : Bool
  ports : List (Nat × Bool)
  up : Bool
  itype : String
  original_name : String
  conn_type : Option String
  ifname : Option (Option String)
  observed : Bool
deriving DecidableEq

structure Group where
  name : String
  mac : Option String
  known : Bool
  notes : String
  interfaces : List Iface
  up : Bool
  missing : Bool
  is_host : Bool
  has_tailscale : Bool
deriving DecidableEq

structure SeedState where
  combined : List (String × Group)
  macToGroup : List (String × String)
  nameToGroup : List (String × String)
  ipToGroup : List (String × String)

/-- The fresh group dict of lines 1013-1024. -/
def emptyGroup (bn : String) (mac0 : Option String) (notes0 : String) : Group :=
  { name := bn, mac := mac0, known := true, notes := notes0, interfaces := [],
    up := false, missing := true, is_host := false, has_tailscale := false }

/-- The interface dict appended on lines 1045-1055 for a configured IP. -/
def seedIfaceOf (hostIpsAll : List String) (kd : KnownDevice) (mac0 : Option String)
    (mip : String) : Iface :=
  let hostIp : Bool := decide (mip ∈ hostIpsAll)
  { ip := mip, mac := mac0, ping := hostIp,
    ports := kd.ports.map (fun p => (p, false)), up := hostIp,
    itype := if strStartsWith mip "100." then "Tailscale" else "Local",
    original_name := kd.name, conn_type := none, ifname := none,
    observed := hostIp }

/-- Line 1027: `if (kd.match_ip and kd.match_ip in host_ips_all) or
(mac and any(normalize_mac(m) == mac for m in host_macs)): is_host = True`. -/
def markHostGroup (hostIpsAll hostMacs : List String) (kd : KnownDevice)
    (g : Group) : Group :=
  if (match kdIp kd with
      | some mip => decide (mip ∈ hostIpsAll)
      | none => false) ||
     (match kdMac kd with
      | some mc => hostMacs.any (fun hm => normalize_mac hm = mc)
      | none => false)
  then { g with is_host := true } else g

/-- The body of lines 1036-1055 for a configured IP `mip`: set the tailscale
flag, promote up / clear missing when the IP is host-owned, and append the
seeded interface. -/
def seedAppendIfaceSome (hostIpsAll : List String) (kd : KnownDevice)
    (mip : String) (g : Group) : Group :=
  let g1 := if strStartsWith mip "100." then { g with has_tailscale := true } else g
  let g2 := if mip ∈ hostIpsAll then { g1 with up := true, missing := false } else g1
  { g2 with interfaces := g2.interfaces ++ [seedIfaceOf hostIpsAll kd (kdMac kd) mip] }

/-- Lines 1036-1055: only devices with a configured IP seed an interface. -/
def seedAppendIface (hostIpsAll : List String) (kd : KnownDevice) (g : Group) :
    Group :=
  match kdIp kd with
  | none => g
  | some mip => seedAppendIfaceSome hostIpsAll kd mip g

/-- Lines 1026-1055 applied to the group stored under this device's base
name. -/
def seedGroupUpdate (hostIpsAll hostMacs : List String) (kd : KnownDevice)
    (g : Group) : Group :=
  seedAppendIface hostIpsAll kd (markHostGroup hostIpsAll hostMacs kd g)

/-- `if bn not in combined: combined[bn] = {...}` (lines 1013-1024). -/
def extendIfAbsent (combined : List (String × Group)) (key : String) (g0 : Group) :
    List (String × Group) :=
  match dictGet combined key with
  | some _ => combined
  | none => combined ++ [(key, g0)]

/-- In-place mutation of the group stored under a key (the source mutates
the dict entry through an alias). -/
def updateGroupAt (combined : List (String × Group)) (key : String)
    (f : Group → Group) : List (String × Group) :=
  match dictGet combined key with
  | some g => dictSet combined key (f g)
  | none => combined

/-- One iteration of the `for kd in known` seeding loop (lines 1011-1055),
including the three lookup maps (lines 1030-1034). -/
def seedStep (hostIpsAll hostMacs : List String) (bnf : String → String)
    (st : SeedState) (kd : KnownDevice) : SeedState :=
  let bn := bnf kd.name
  ⟨updateGroupAt (extendIfAbsent st.combined bn (emptyGroup bn (kdMac kd) kd.notes))
     bn (seedGroupUpdate hostIpsAll hostMacs kd),
   (match kdMac kd with
    | some mc => dictSet st.macToGroup mc bn
    | none => st.macToGroup),
   dictSet st.nameToGroup bn bn,
   (match kdIp kd with
    | some mip => dictSet st.ipToGroup mip bn
    | none => st.ipToGroup)⟩

def seedKnownState (hostIpsAll hostMacs : List String) (bnf : String → String)
    (known : List KnownDevice) : SeedState :=
  known.foldl (seedStep hostIpsAll hostMacs bnf) ⟨[], [], [], []⟩

/-- Line 1057: the first seeded group flagged is_host, else "Host machine". -/
def hostGroupName (combined : List (String × Group)) : String :=
  match combined.find? (fun p => p.2.is_host) with
  | some p => p.1
  | none => "Host machine"

/-- Lines 1060-1077: for host groups, interfaces on host-owned IPs with a
nonempty port list get their ports re-probed; an open port forces up. -/
def hostIfacePorts (oracle : String → Nat → Bool) (hostIpsAll : List String)
    (i : Iface) : Iface :=
  if i.ip ∈ hostIpsAll ∧ i.ports ≠ [] then
    { i with ports := i.ports.map (fun pb => (pb.1, oracle i.ip pb.1)),
             up := if (i.ports.map (fun pb => (pb.1, oracle i.ip pb.1))).any
                      (fun pb => pb.2) then true else i.up }
  else i

def hostPortCheck (oracle : String → Nat → Bool) (hostIpsAll : List String)
    (combined : List (String × Group)) : List (String × Group) :=
  combined.map (fun p =>
    if p.2.is_host then
      (p.1, { p.2 with interfaces := p.2.interfaces.map (hostIfacePorts oracle hostIpsAll) })
    else p)

/-- `re.match(r"^\d+\.\d+\.\d+\.\d+$", s)` (line 1102): four nonempty digit
groups. -/
def isDottedQuad (s : String) : Bool :=
  match strSplitOnChar '.' s with
  | [a, b, c, d] =>
    a ≠ "" && b ≠ "" && c ≠ "" && d ≠ "" &&
    a.data.all Char.isDigit && b.data.all Char.isDigit &&
    c.data.all Char.isDigit && d.data.all Char.isDigit
  | _ => false

/-- `normalize_mac(dev.get("mac")) if dev.get("mac") else None` (line 1083). -/
def devMacN (dev : Discovered) : Option String :=
  match dev.mac with
  | some mc => if mc = "" then none else some (normalize_mac mc)
  | none => none

/-- The iface_payload dict (lines 1133-1143); note it carries the RAW
`dev.get("mac")`, not the normalized one. -/
def ifacePayload (dev : Discovered) (ip name : String) : Iface :=
  { ip := ip, mac := dev.mac, ping := dev.ping, ports := dev.ports, up := dev.up,
    itype := if strStartsWith ip "100." then "Tailscale" else "Local",
    original_name := name, conn_type := some dev.conn_type,
    ifname := some dev.ifname, observed := true }

/-- Lines 1132, 1146-1149: update the FIRST interface with this ip in place
(`iface.update(payload)` overwrites every key the seed ever wrote, so it is a
full replacement), else append. -/
def upsertIface : List Iface → Iface → List Iface
  | [], pay => [pay]
  | i :: t, pay => if i.ip = pay.ip then pay :: t else i :: upsertIface t pay

/-- The group-field updates of lines 1117-1130 followed by the tailscale flag
and interface upsert of lines 1144-1149, in source order.  `dev.get("missing")`
is always None — enrich writes no "missing" key — so line 1123-1124
unconditionally clears `missing`. -/
def applyDevUpdates (dev : Discovered) (pay : Iface) (g : Group) : Group :=
  let g := if dev.is_host then { g with is_host := true } else g
  let g := { g with up := g.up || dev.up }
  let g := if dev.known then { g with known := true } else g
  let g := { g with missing := false }
  let g := if dev.notes ≠ "" ∧ g.notes = "" then { g with notes := dev.notes } else g
  let g :=
    match g.mac, devMacN dev with
    | none, some mc => { g with mac := some mc }
    | _, _ => g
  let g := if dev.is_host then { g with is_host := true } else g
  let g := if pay.itype = "Tailscale" then { g with has_tailscale := true } else g
  { g with interfaces := upsertIface g.interfaces pay }

/-- Target-group selection (lines 1091-1102): host identity, then known MAC,
then known base name, then known IP, then the synthetic key (mac, else base
name unless it is a bare dotted quad, else the ip). -/
def devTargetGroup (hostGrpName : String) (macToGroup nameToGroup ipToGroup :
    List (String × String)) (devHost : Bool) (mac : Option String)
    (bn ip : String) : String :=
  if devHost then hostGrpName
  else
    match (match mac with | some mc => dictGet macToGroup mc | none => none) with
    | some t => t
    | none =>
      match dictGet nameToGroup bn with
      | some t => t
      | none =>
        match (if ip ≠ "Unknown IP" then dictGet ipToGroup ip else none) with
        | some t => t
        | none =>
          match mac with
          | some mc => mc
          | none => if ¬ isDottedQuad bn then bn else ip

/-- The fresh synthetic group of lines 1105-1115. -/
def devNewGroup (hostname : String) (target bn : String) (mac : Option String)
    (dev : Discovered) : Group :=
  { name := if target ≠ "Host machine" then bn else hostname,
    mac := mac, known := false, notes := dev.notes, interfaces := [],
    up := false, missing := false,
    is_host := decide (target = "Host machine") || dev.is_host,
    has_tailscale := false }

/-- One iteration of the `for dev in discovered.values()` fold
(lines 1082-1149): target-group selection, creation of a missing group, then
the field merge and interface upsert. -/
def foldDev (gatewayIp : Option String) (hostGrpName hostname : String)
    (bnf : String → String) (macToGroup nameToGroup ipToGroup : List (String × String))
    (combined : List (String × Group)) (dev : Discovered) : List (String × Group) :=
  let mac := devMacN dev
  let ip := if dev.ip = "" then "Unknown IP" else dev.ip
  let name := dev.name
  let isGw : Bool :=
    match gatewayIp with
    | some g => g ≠ "" && ip = g
    | none => false
  let bn := if isGw then name else bnf name
  let target := devTargetGroup hostGrpName macToGroup nameToGroup ipToGroup
    dev.is_host mac bn ip
  updateGroupAt (extendIfAbsent combined target (devNewGroup hostname target bn mac dev))
    target (applyDevUpdates dev (ifacePayload dev ip name))

/-- `{i["ip"]: i for i in target.get("interfaces", []) if i.get("ip")}`
(line 1174): Python dict comprehension — first occurrence fixes the position,
the last duplicate wins the value. -/
def ifaceByIpDict (ifs : List Iface) : List (String × Iface) :=
  ifs.foldl (fun mp i => if i.ip ≠ "" then dictSet mp i.ip i else mp) []

/-- The body of merge_known_groups for a key collision (lines 1166-1182):
OR/AND the flags, first-non-empty mac and notes, and keep the target's
interface for any duplicated IP while appending the absorbed group's new
ones. -/
def mergeTwo (t g : Group) : Group :=
  let ifs :=
    g.interfaces.foldl
      (fun mp i =>
        if i.ip = "" then mp
        else match dictGet mp i.ip with
          | some _ => mp
          | none => mp ++ [(i.ip, i)])
      (ifaceByIpDict t.interfaces)
  { t with
    up := t.up || g.up, missing := t.missing && g.missing,
    is_host := t.is_host || g.is_host, known := true,
    mac := (match t.mac with | some mc => some mc | none => g.mac),
    notes := if t.notes ≠ "" then t.notes else g.notes,
    has_tailscale := t.has_tailscale || g.has_tailscale,
    interfaces := ifs.map (fun p => p.2) }

/-- One iteration of merge_known_groups' loop (lines 1161-1182). -/
def mergeStep (bnf : String → String) (merged : List (String × Group))
    (g : Group) : List (String × Group) :=
  match dictGet merged (strLower (bnf g.name)) with
  | none => merged ++ [(strLower (bnf g.name), g)]
  | some t => dictSet merged (strLower (bnf g.name)) (mergeTwo t g)

/-- merge_known_groups (lines 1159-1183): fold the known groups into a dict
keyed by `_base_name(name).lower()`. -/
def mergeKnownGroups (bnf : String → String) (groups : List Group) : List Group :=
  (groups.foldl (mergeStep bnf) []).map (fun p => p.2)

/-- Python's `sorted` is a stable ascending sort; this structural insertion
sort is stable with the same tie behaviour (a later element is inserted
after every earlier element that compares ≤ to it). -/
def insertSorted {α : Type} (le : α → α → Bool) (a : α) : List α → List α
  | [] => [a]
  | b :: t => if le b a then b :: insertSorted le a t else a :: b :: t

def pySorted {α : Type} (le : α → α → Bool) (l : List α) : List α :=
  l.foldl (fun acc a => insertSorted le a acc) []

/-- Sort key of line 1229: `x["name"].lower()`. -/
def knownLe (a b : Group) : Bool :=
  strLe (strLower a.name) (strLower b.name)

/-- Sort key of line 1230: the tuple `(not x["up"], x["name"].lower())` —
up groups sort first (False < True), names break ties. -/
def discLe (a b : Group) : Bool :=
  (a.up && !b.up) || ((a.up == b.up) && strLe (strLower a.name) (strLower b.name))

/-- Lines 1006-1185 plus 1229-1230 end to end: seed groups from the known
devices, locate the host group, run the host port checks, fold in the
enriched discovered devices (in completion order, which the `devs` list
fixes), partition into known / discovered (a discovered group needs at least
one interface, lines 1151-1157), merge colliding known groups, and sort both
lists. -/
def discoveryGroups (known : List KnownDevice) (hostIpsAll hostMacs : List String)
    (bnf : String → String) (hostname : String) (oracle : String → Nat → Bool)
    (gatewayIp : Option String) (devs : List Discovered) :
    List Group × List Group :=
  let st := seedKnownState hostIpsAll hostMacs bnf known
  let hg := hostGroupName st.combined
  let combined := hostPortCheck oracle hostIpsAll st.combined
  let combined := devs.foldl
    (foldDev gatewayIp hg hostname bnf st.macToGroup st.nameToGroup st.ipToGroup)
    combined
  let vals := combined.map (fun p => p.2)
  let finalKnown := mergeKnownGroups bnf (vals.filter (fun g => g.known))
  let finalDisc := vals.filter (fun g => !g.known && !g.interfaces.isEmpty)
  (pySorted knownLe finalKnown, pySorted discLe finalDisc)

/-- The per-group soundness invariant actually maintained by the pipeline:
any up interface implies the group is up, and any observed interface implies
the group is not missing.  (The converses fail — see the C5 counterexample.) -/
def GroupSound (g : Group) : Prop :=
  ((∃ i ∈ g.interfaces, i.up = true) → g.up = true) ∧
  ((∃ i ∈ g.interfaces, i.observed = true) → g.missing = false)

/-- The strengthened invariant holding right after seeding: additionally,
every seeded interface on a host-owned IP is up (`"up": is_host_ip`,
line 1052), which is what keeps the host port check from raising an
interface above its group. -/
def SeedSound (hostIpsAll : List String) (g : Group) : Prop :=
  GroupSound g ∧ ∀ i ∈ g.interfaces, i.ip ∈ hostIpsAll → i.up = true

/-- A concrete discovery cycle exercising the grouping pipeline.  Config:
devices "Printer" and "printer" (a case variant, both matching the gateway
IP 10.0.0.7) and "Self" matching the host's own address 192.168.1.5.
`_base_name` is the identity on every name involved;
the hostname is "myhost"; no host port answers. -/
def c5ExampleKnown : List KnownDevice :=
  [⟨"Printer", some "10.0.0.7", none, [9100], ""⟩,
   ⟨"printer", some "10.0.0.7", none, [9100], ""⟩,
   ⟨"Self", some "192.168.1.5", none, [], ""⟩]

/-- The enrichment results of that cycle: both candidate IPs (the gateway
10.0.0.7 — hence the special-cased display name — and the host's own
192.168.1.5) answered neither ping nor any probed port, so both are down;
both match a known device by IP.  Exactly what `enrich` produces when every
ping and TCP probe fails. -/
def c5ExampleDevs : List Discovered :=
  [⟨"10.0.0.7", "Gateway (10.0.0.7)", none, true, "", false, [], false, none,
    "Wired", false⟩,
   ⟨"192.168.1.5", "Self", none, true, "", false, [], false, none,
    "Wired", true⟩]

def c5Example : List Group × List Group :=
  discoveryGroups c5ExampleKnown ["192.168.1.5"] [] (fun s => s) "myhost"
    (fun _ _ => false) (some "10.0.0.7") c5ExampleDevs

/-! ## Discovery cache gate (src/netdash/discovery.py lines 500-517, 596-621)

The module-level cache state and the head of `discover`: fingerprint-change
invalidation followed by the cache-hit test.  Timestamps are seconds; the
source holds float seconds from `time.time()` and only compares elapsed time
against the integer thresholds 60 and 120, so an ordered integer type
carries the logic.  `R` abstracts the DiscoveryResult payload; the falsy
empty dict is `none`. -/

structure DiscCache (R : Type) where
  lastResult : Option R
  lastTime : Int
  lastFp : String
  lastSnapshot : List Neighbor
  lastSnapshotTs : Int
  lastSnapshotFp : String

/-- Lines 604-609: clearing the discovery cache (`_last_disc_result = {}`,
`_last_disc_time = 0`, snapshot and snapshot bookkeeping emptied;
`_last_network_fingerprint` itself is not touched). -/
def discoverClear {R : Type} (st : DiscCache R) : DiscCache R :=
  { st with lastResult := none, lastTime := 0,
            lastSnapshot := [], lastSnapshotTs := 0, lastSnapshotFp := "" }

/-- Lines 603-609: `if _last_network_fingerprint and
network_fp != _last_network_fingerprint: <clear>`. -/
def discoverInvalidate {R : Type} (st : DiscCache R) (networkFp : String) :
    DiscCache R :=
  if st.lastFp ≠ "" ∧ networkFp ≠ st.lastFp then discoverClear st else st

/-- Lines 611-621: the cache hit requires no forced refresh, caching enabled,
a truthy previous result, elapsed time under 60s and an unchanged
fingerprint, and returns the stored result. -/
def discoverHitTest {R : Type} (st1 : DiscCache R) (now : Int) (networkFp : String)
    (forceRefresh cacheDisabled : Bool) : Option R × DiscCache R :=
  if ¬ forceRefresh ∧ ¬ cacheDisabled ∧ st1.lastResult.isSome ∧
      now - st1.lastTime < 60 ∧ networkFp = st1.lastFp
  then (st1.lastResult, st1)
  else (none, st1)

/-- Lines 600-621 of `discover`: fingerprint-change invalidation followed by
the cache-hit test.  The first component is the cache-hit return (none =
fall through to a fresh cycle). -/
def discoverGate {R : Type} (st : DiscCache R) (now : Int) (networkFp : String)
    (forceRefresh cacheDisabled : Bool) : Option R × DiscCache R :=
  discoverHitTest (discoverInvalidate st networkFp) now networkFp
    forceRefresh cacheDisabled

/-! ## Object identity of cache returns

The discovery cache claims are about Python object identity: whether the value
a caller receives shares mutable structure with the module-level cache slot
`_last_disc_result`.  We model identity by numbering heap objects: the cache
slot holds one object id, `copy.deepcopy` allocates a fresh id (deep copies
share nothing with their source), and plain assignment aliases.  Payload
contents are irrelevant to the aliasing question and are omitted. -/

structure CacheHeap where
  slotId : Nat
  nextId : Nat
deriving DecidableEq

/-- `copy.deepcopy(x)` returns a fresh object, id = the allocation counter. -/
def allocDeepCopy (h : CacheHeap) : Nat × CacheHeap :=
  (h.nextId, ⟨h.slotId, h.nextId + 1⟩)

/-- get_cached_discovery (src/netdash/discovery.py lines 516-517):
`return copy.deepcopy(_last_disc_result)` — a deep copy of the slot. -/
def get_cached_discovery_ref (h : CacheHeap) : Nat × CacheHeap :=
  allocDeepCopy h

/-- The cache-hit return of discover (line 621):
`return copy.deepcopy(_last_disc_result)` — a deep copy of the slot. -/
def discover_cache_hit_ref (h : CacheHeap) : Nat × CacheHeap :=
  allocDeepCopy h

/-- The fresh-cycle return of discover (lines 1225, 1249, 1252): `res` is a
newly built object, `_last_disc_result = res` stores it in the slot, and
`return res` hands the very same object to the caller. -/
def discover_fresh_ref (h : CacheHeap) : Nat × CacheHeap :=
  (h.nextId, ⟨h.nextId, h.nextId + 1⟩)

end Netdash

namespace Netdash

/-! # Theorems -/

/-! ## Shared helper lemmas -/

theorem dictGet_mem {α : Type} {m : List (String × α)} {k : String} {v : α}
    (h : dictGet m k = some v) : (k, v) ∈ m := by
  induction m with
  | nil => simp [dictGet] at h
  | cons p t ih =>
    obtain ⟨k', v'⟩ := p
    by_cases hk : k' = k
    · subst hk
      rw [dictGet, if_pos rfl] at h
      obtain rfl : v' = v := by injection h
      exact List.mem_cons_self _ _
    · rw [dictGet, if_neg hk] at h
      exact List.mem_cons_of_mem _ (ih h)

theorem dictSet_mem {α : Type} {m : List (String × α)} {k : String} {v : α}
    {p : String × α} (h : p ∈ dictSet m k v) : p = (k, v) ∨ p ∈ m := by
  induction m with
  | nil => simpa [dictSet] using h
  | cons q t ih =>
    obtain ⟨k', v'⟩ := q
    by_cases hk : k' = k
    · subst hk
      rw [dictSet, if_pos rfl] at h
      rcases List.mem_cons.mp h with rfl | h'
      · exact Or.inl rfl
      · exact Or.inr (List.mem_cons_of_mem _ h')
    · rw [dictSet, if_neg hk] at h
      rcases List.mem_cons.mp h with rfl | h'
      · exact Or.inr (List.mem_cons_self _ _)
      · rcases ih h' with h'' | h''
        · exact Or.inl h''
        · exact Or.inr (List.mem_cons_of_mem _ h'')

theorem find?_of_first {α : Type} (p : α → Bool) (pre : List α) (n : α) (post : List α)
    (hpre : ∀ m ∈ pre, p m = false) (hn : p n = true) :
    (pre ++ n :: post).find? p = some n := by
  induction pre with
  | nil => simpa [List.find?] using List.find?_cons_of_pos post hn
  | cons a t ih =>
    have ha : p a = false := hpre a (List.mem_cons_self _ _)
    rw [List.cons_append, List.find?_cons_of_neg _ (by simp [ha])]
    exact ih (fun m hm => hpre m (List.mem_cons_of_mem _ hm))

theorem minByNumAddresses_spec (n0 : Net) (t : List Net) :
    ∃ m, minByNumAddresses (n0 :: t) = some m ∧ m ∈ n0 :: t ∧
      ∀ k ∈ n0 :: t, netSize m ≤ netSize k := by
  suffices h : ∀ (t : List Net) (n : Net),
      (t.foldl (fun best x => if netSize x < netSize best then x else best) n) ∈ n :: t ∧
      ∀ k ∈ n :: t,
        netSize (t.foldl (fun best x => if netSize x < netSize best then x else best) n)
          ≤ netSize k by
    exact ⟨_, rfl, (h t n0).1, (h t n0).2⟩
  intro t
  induction t with
  | nil =>
    intro n
    refine ⟨List.mem_cons_self _ _, ?_⟩
    intro k hk
    rcases List.mem_cons.mp hk with rfl | hk
    · exact le_refl _
    · simp at hk
  | cons a s ih =>
    intro n
    simp only [List.foldl_cons]
    obtain ⟨hmem, hmin⟩ := ih (if netSize a < netSize n then a else n)
    have hble : netSize (if netSize a < netSize n then a else n) ≤ netSize n ∧
        netSize (if netSize a < netSize n then a else n) ≤ netSize a := by
      split <;> omega
    constructor
    · rcases List.mem_cons.mp hmem with hb | hs
      · rw [hb]
        split
        · exact List.mem_cons_of_mem _ (List.mem_cons_self _ _)
        · exact List.mem_cons_self _ _
      · exact List.mem_cons_of_mem _ (List.mem_cons_of_mem _ hs)
    · intro k hk
      have hself := hmin _ (List.mem_cons_self _ _)
      rcases List.mem_cons.mp hk with rfl | hk'
      · omega
      · rcases List.mem_cons.mp hk' with rfl | hk''
        · omega
        · exact hmin _ (List.mem_cons_of_mem _ hk'')

theorem sweepLoop_length_le (cands : List String) (maxHosts : Int) :
    ∀ (hosts : List String) (count : Int), count < maxHosts →
      ((sweepLoop cands maxHosts hosts count).length : Int) ≤ maxHosts - count := by
  intro hosts
  induction hosts with
  | nil => intro count h; simp [sweepLoop]; omega
  | cons h t ih =>
    intro count hlt
    simp only [sweepLoop]
    by_cases hmem : ¬ h ∈ cands
    · rw [if_pos hmem]
      by_cases hge : count + 1 ≥ maxHosts
      · rw [if_pos hge]; simp; omega
      · rw [if_neg hge]
        have := ih (count + 1) (by omega)
        simp only [List.length_cons]
        push_cast
        omega
    · rw [if_neg hmem]
      have hnot : ¬ count ≥ maxHosts := by omega
      rw [if_neg hnot]
      have := ih count hlt
      omega

theorem sweepLoop_not_mem_candidates (cands : List String) (maxHosts : Int) :
    ∀ (hosts : List String) (count : Int) (ip : String),
      ip ∈ sweepLoop cands maxHosts hosts count → ¬ ip ∈ cands := by
  intro hosts
  induction hosts with
  | nil => intro count ip h; simp [sweepLoop] at h
  | cons h t ih =>
    intro count ip hmem
    simp only [sweepLoop] at hmem
    by_cases hc : ¬ h ∈ cands
    · rw [if_pos hc] at hmem
      by_cases hge : count + 1 ≥ maxHosts
      · rw [if_pos hge] at hmem
        simp at hmem; subst hmem; exact hc
      · rw [if_neg hge] at hmem
        rcases List.mem_cons.mp hmem with rfl | hmem'
        · exact hc
        · exact ih _ _ hmem'
    · rw [if_neg hc] at hmem
      by_cases hge : count ≥ maxHosts
      · rw [if_pos hge] at hmem; simp at hmem
      · rw [if_neg hge] at hmem; exact ih _ _ hmem

theorem seedCandidatesLoop_subset (windows : Bool) (gatewayIp : Option String)
    (sweepNet : Option Net) :
    ∀ (ns : List Neighbor) (ip : String),
      ip ∈ seedCandidatesLoop windows gatewayIp sweepNet ns →
      ∃ n ∈ ns, n.ip = ip := by
  intro ns
  induction ns with
  | nil => intro ip h; simp [seedCandidatesLoop] at h
  | cons n t ih =>
    intro ip h
    have hcases : seedCandidatesLoop windows gatewayIp sweepNet (n :: t)
        = seedCandidatesLoop windows gatewayIp sweepNet t ∨
        seedCandidatesLoop windows gatewayIp sweepNet (n :: t)
        = n.ip :: seedCandidatesLoop windows gatewayIp sweepNet t := by
      simp only [seedCandidatesLoop]
      repeat' split
      all_goals first | exact Or.inl rfl | exact Or.inr rfl
    rcases hcases with he | he
    · rw [he] at h
      obtain ⟨m, hm, hq⟩ := ih ip h
      exact ⟨m, List.mem_cons_of_mem _ hm, hq⟩
    · rw [he] at h
      rcases List.mem_cons.mp h with rfl | h'
      · exact ⟨n, List.mem_cons_self _ _, rfl⟩
      · obtain ⟨m, hm, hq⟩ := ih ip h'
        exact ⟨m, List.mem_cons_of_mem _ hm, hq⟩

/-- C1: in any discovery cycle, for any MAC backing at least 10 distinct IPs
in the IP-deduplicated neighbor table, every neighbor entry carrying that MAC
whose IP is not the gateway IP is dropped by the proxy-ARP filter and its IP
is absent from the candidate set as seeded before the sweep; the entry whose
IP equals the gateway IP is kept. -/
theorem c1_proxy_arp_excluded (neighbors : List Neighbor) (gatewayIp : Option String)
    (sweepNet : Option Net) (windows : Bool) (m : String) (n : Neighbor)
    (hnodup : (neighbors.map (fun x => x.ip)).Nodup)
    (hm : isProxyArpMac neighbors m = true)
    (hn : n ∈ neighbors) (hmac : n.mac = m) :
    (some n.ip ≠ gatewayIp →
      ¬ n ∈ filterProxyArp neighbors gatewayIp ∧
      ¬ n.ip ∈ preSweepCandidates windows gatewayIp sweepNet
          (filterProxyArp neighbors gatewayIp)) ∧
    (some n.ip = gatewayIp → n ∈ filterProxyArp neighbors gatewayIp) := by
  constructor
  · intro hgw
    have hnotf : ¬ n ∈ filterProxyArp neighbors gatewayIp := by
      intro hinf
      have hp := (List.mem_filter.mp hinf).2
      rw [decide_eq_true_eq] at hp
      rcases hp with hp | hp
      · rw [hmac] at hp; exact hp hm
      · exact hgw hp
    refine ⟨hnotf, ?_⟩
    intro hmem
    unfold preSweepCandidates at hmem
    rcases List.mem_append.mp hmem with hg | hs
    · cases hgwv : gatewayIp with
      | none => rw [hgwv] at hg; simp at hg
      | some gw =>
        rw [hgwv] at hg
        have hg' : n.ip ∈ (if gw ≠ "" ∧ isValidHostIp gw = true then [gw] else []) := hg
        by_cases hval : gw ≠ "" ∧ isValidHostIp gw = true
        · rw [if_pos hval] at hg'
          have : n.ip = gw := List.mem_singleton.mp hg'
          subst this
          exact hgw hgwv.symm
        · rw [if_neg hval] at hg'
          simp at hg'
    · obtain ⟨n', hn', hip'⟩ := seedCandidatesLoop_subset windows gatewayIp sweepNet
        (filterProxyArp neighbors gatewayIp) n.ip hs
      have hn'mem : n' ∈ neighbors := List.mem_of_mem_filter hn'
      have heq : n' = n :=
        List.inj_on_of_nodup_map hnodup hn'mem hn hip'
      rw [heq] at hn'
      exact hnotf hn'
  · intro hgw
    refine List.mem_filter.mpr ⟨hn, ?_⟩
    rw [decide_eq_true_eq]
    exact Or.inr hgw

/-- C1 witness: ten neighbor entries 10.0.0.1 .. 10.0.0.10 all carry MAC
aa:aa:aa:aa:aa:aa and the gateway is 10.0.0.1: the entry for 10.0.0.2 is
excluded from the pre-sweep candidate set, while the gateway entry is kept
by the filter. -/
theorem c1_witness :
    ¬ ("10.0.0.2" : String) ∈ preSweepCandidates false (some "10.0.0.1") none
        (filterProxyArp ((List.range 10).map (fun i =>
          (⟨"10.0.0." ++ toString (i + 1), "aa:aa:aa:aa:aa:aa", "REACHABLE", none⟩ : Neighbor)))
          (some "10.0.0.1")) ∧
    (⟨"10.0.0.1", "aa:aa:aa:aa:aa:aa", "REACHABLE", none⟩ : Neighbor) ∈
      filterProxyArp ((List.range 10).map (fun i =>
        (⟨"10.0.0." ++ toString (i + 1), "aa:aa:aa:aa:aa:aa", "REACHABLE", none⟩ : Neighbor)))
        (some "10.0.0.1") := by
  have h2 := c1_proxy_arp_excluded
    ((List.range 10).map (fun i =>
      (⟨"10.0.0." ++ toString (i + 1), "aa:aa:aa:aa:aa:aa", "REACHABLE", none⟩ : Neighbor)))
    (some "10.0.0.1") none false "aa:aa:aa:aa:aa:aa"
    ⟨"10.0.0.2", "aa:aa:aa:aa:aa:aa", "REACHABLE", none⟩
    (by decide) (by decide) (by decide) rfl
  have h1 := c1_proxy_arp_excluded
    ((List.range 10).map (fun i =>
      (⟨"10.0.0." ++ toString (i + 1), "aa:aa:aa:aa:aa:aa", "REACHABLE", none⟩ : Neighbor)))
    (some "10.0.0.1") none false "aa:aa:aa:aa:aa:aa"
    ⟨"10.0.0.1", "aa:aa:aa:aa:aa:aa", "REACHABLE", none⟩
    (by decide) (by decide) (by decide) rfl
  exact ⟨(h2.1 (by decide)).2, h1.2 rfl⟩

/-- C9: in fast mode enrichment the ports map is empty and the reverse-DNS
and TCP oracles are never consulted (the result is identical for any two of
them); but `ping` / `up` come from `ip in ping_results` — MEMBERSHIP, not the
recorded value (line 961) — so the candidate 10.0.0.2, whose sweep ping was
recorded as a FAILURE (reachable e.g. through the empty-candidate fallback of
lines 932-936), is reported with ping = up = True, while the claim (and the
non-fast path, lines 969-974, which reads `ping_results[ip]`) requires an IP
with no recorded ping success to be reported as not up. -/
theorem c9_fast_enrich :
    (∀ (known : List KnownDevice) (defaultPorts : List Nat)
       (gatewayIp : Option String) (hostIpsAll : List String) (darwin : Bool)
       (pingResults : List (String × Bool))
       (macByIp : List (String × Option String)) (ifaceByIp : List (String × String))
       (dns1 dns2 : String → Option String) (po1 po2 : String → Nat → Bool)
       (pg : String → Bool) (ip : String),
      enrichDevice true known defaultPorts gatewayIp hostIpsAll darwin pingResults
          macByIp ifaceByIp dns1 po1 pg ip
        = enrichDevice true known defaultPorts gatewayIp hostIpsAll darwin pingResults
          macByIp ifaceByIp dns2 po2 pg ip ∧
      (enrichDevice true known defaultPorts gatewayIp hostIpsAll darwin pingResults
          macByIp ifaceByIp dns1 po1 pg ip).ports = []) ∧
    dictGet [("10.0.0.2", false)] "10.0.0.2" = some false ∧
    (enrichDevice true [] [22, 80] none [] false [("10.0.0.2", false)] [] []
      (fun _ => none) (fun _ _ => false) (fun _ => false) "10.0.0.2").ping = true ∧
    (enrichDevice true [] [22, 80] none [] false [("10.0.0.2", false)] [] []
      (fun _ => none) (fun _ _ => false) (fun _ => false) "10.0.0.2").up = true := by
  exact ⟨fun _ _ _ _ _ _ _ _ _ _ _ _ _ _ => ⟨rfl, rfl⟩, rfl, rfl, rfl⟩

/-- C3 counterexample: the claim says a differing fresh fingerprint always
clears the cached result, the neighbor snapshot and the rate-limit timer,
but the clearing on lines 603-609 is guarded by
`if _last_network_fingerprint and ...`: when the stored fingerprint is still
the empty string the snapshot survives a fingerprint change.  That state is
reachable: with NETDASH_DISABLE_CACHE set, a cycle stores the neighbor
snapshot (line 654) but never stores a fingerprint (lines 1248-1251).  Here
the fresh fingerprint "fpB" differs from the stored "" yet the snapshot is
kept. -/
theorem c3_counterexample :
    ("fpB" : String) ≠
      (DiscCache.mk (R := Nat) none 0 ""
        [⟨"192.168.1.7", "aa:bb:cc:dd:ee:01", "REACHABLE", some "eth0"⟩] 50 "fpA").lastFp ∧
    (discoverGate
        (DiscCache.mk (R := Nat) none 0 ""
          [⟨"192.168.1.7", "aa:bb:cc:dd:ee:01", "REACHABLE", some "eth0"⟩] 50 "fpA")
        100 "fpB" false true).2.lastSnapshot
      = [⟨"192.168.1.7", "aa:bb:cc:dd:ee:01", "REACHABLE", some "eth0"⟩] := by
  decide

/-- C3 amended: the cache-hit path fires exactly under the claimed
conditions (caching enabled, truthy previous result, under 60 seconds
elapsed, fingerprint unchanged, no forced refresh), returning the stored
result; and whenever a previous fingerprint has actually been stored (it is
nonempty) and the fresh fingerprint differs, the cached result, neighbor
snapshot and rate-limit timer are cleared and the call falls through to a
fresh cycle. -/
theorem c3_cache_gate {R : Type} (st : DiscCache R) (now : Int) (fp : String)
    (force disabled : Bool) :
    ((∃ r, (discoverGate st now fp force disabled).1 = some r) ↔
      (force = false ∧ disabled = false ∧ (∃ r0, st.lastResult = some r0) ∧
        now - st.lastTime < 60 ∧ fp = st.lastFp)) ∧
    (∀ r, (discoverGate st now fp force disabled).1 = some r →
      st.lastResult = some r) ∧
    (st.lastFp ≠ "" → fp ≠ st.lastFp →
      (discoverGate st now fp force disabled).1 = none ∧
      (discoverGate st now fp force disabled).2.lastResult = none ∧
      (discoverGate st now fp force disabled).2.lastTime = 0 ∧
      (discoverGate st now fp force disabled).2.lastSnapshot = []) := by
  by_cases hc : st.lastFp ≠ "" ∧ fp ≠ st.lastFp
  · have hinv : discoverInvalidate st fp = discoverClear st := by
      unfold discoverInvalidate; rw [if_pos hc]
    have hgate : discoverGate st now fp force disabled = (none, discoverClear st) := by
      unfold discoverGate
      rw [hinv]
      unfold discoverHitTest
      rw [if_neg]
      intro h
      exact absurd h.2.2.1 (by simp [discoverClear])
    refine ⟨?_, ?_, ?_⟩
    · rw [hgate]
      constructor
      · rintro ⟨r, hr⟩; simp at hr
      · rintro ⟨_, _, _, _, hfp⟩; exact absurd hfp hc.2
    · intro r hr; rw [hgate] at hr; simp at hr
    · intro _ _; rw [hgate]; exact ⟨rfl, rfl, rfl, rfl⟩
  · have hinv : discoverInvalidate st fp = st := by
      unfold discoverInvalidate; rw [if_neg hc]
    have hgate : discoverGate st now fp force disabled =
        discoverHitTest st now fp force disabled := by
      unfold discoverGate; rw [hinv]
    by_cases hhit : ¬ force = true ∧ ¬ disabled = true ∧
        st.lastResult.isSome = true ∧ now - st.lastTime < 60 ∧ fp = st.lastFp
    · have hg2 : discoverHitTest st now fp force disabled = (st.lastResult, st) := by
        unfold discoverHitTest; rw [if_pos hhit]
      obtain ⟨r0, hr0⟩ := Option.isSome_iff_exists.mp hhit.2.2.1
      refine ⟨?_, ?_, ?_⟩
      · rw [hgate, hg2]
        constructor
        · intro _
          exact ⟨by simpa using hhit.1, by simpa using hhit.2.1,
                 ⟨r0, hr0⟩, hhit.2.2.2.1, hhit.2.2.2.2⟩
        · intro _; exact ⟨r0, hr0⟩
      · intro r hr; rw [hgate, hg2] at hr; exact hr
      · intro h1 h2; exact absurd ⟨h1, h2⟩ hc
    · have hg2 : discoverHitTest st now fp force disabled = (none, st) := by
        unfold discoverHitTest; rw [if_neg hhit]
      refine ⟨?_, ?_, ?_⟩
      · rw [hgate, hg2]
        constructor
        · rintro ⟨r, hr⟩; simp at hr
        · rintro ⟨hf, hd, ⟨r0, hr0⟩, ht, hfp⟩
          exact absurd ⟨by simp [hf], by simp [hd], by simp [hr0], ht, hfp⟩ hhit
      · intro r hr; rw [hgate, hg2] at hr; simp at hr
      · intro h1 h2; exact absurd ⟨h1, h2⟩ hc

/-- C3 witness: within 60 seconds, unchanged fingerprint "fpA", no force, no
disable: the gate hits; and with a stored nonempty fingerprint "fpA" and a
fresh "fpB", the snapshot and timer are cleared and no hit occurs. -/
theorem c3_witness :
    (∃ r, (discoverGate (DiscCache.mk (R := Nat) (some 7) 100 "fpA" [] 0 "")
        130 "fpA" false false).1 = some r) ∧
    ((discoverGate
        (DiscCache.mk (R := Nat) (some 7) 100 "fpA"
          [⟨"192.168.1.7", "aa:bb:cc:dd:ee:01", "REACHABLE", some "eth0"⟩] 50 "fpA")
        205 "fpB" false false).1 = none ∧
     (discoverGate
        (DiscCache.mk (R := Nat) (some 7) 100 "fpA"
          [⟨"192.168.1.7", "aa:bb:cc:dd:ee:01", "REACHABLE", some "eth0"⟩] 50 "fpA")
        205 "fpB" false false).2.lastSnapshot = []) := by
  refine ⟨?_, ?_⟩
  · exact (c3_cache_gate (DiscCache.mk (R := Nat) (some 7) 100 "fpA" [] 0 "")
      130 "fpA" false false).1.mpr ⟨rfl, rfl, ⟨7, rfl⟩, by decide, rfl⟩
  · have h := (c3_cache_gate
      (DiscCache.mk (R := Nat) (some 7) 100 "fpA"
        [⟨"192.168.1.7", "aa:bb:cc:dd:ee:01", "REACHABLE", some "eth0"⟩] 50 "fpA")
      205 "fpB" false false).2.2 (by decide) (by decide)
    exact ⟨h.1, h.2.2.2⟩

/-- C4 counterexample: with max_sweep_hosts configured as 0 (the source does
`int(disc_cfg.get("max_sweep_hosts", 256))` with no lower bound) and an empty
candidate set over the /30 network 10.0.0.0/30, the loop appends the first
host before testing the break, so the sweep list has length 1 > 0, refuting
`len(sweepIPs) <= max_sweep_hosts` as universally stated. -/
theorem c4_counterexample :
    buildSweep "bounded_sweep" true (some ⟨167772160, 30⟩)
      (effectiveMaxHosts false 0) [] = ["10.0.0.1"] ∧
    ¬ ((buildSweep "bounded_sweep" true (some ⟨167772160, 30⟩)
        (effectiveMaxHosts false 0) []).length : Int) ≤ effectiveMaxHosts false 0 := by
  decide

/-- C4 amended: whenever the effective maximum (the configured
max_sweep_hosts, lowered to 64 in fast mode) is at least 1, the sweep list
has at most that many entries; unconditionally, no sweep IP is in the
candidate set as it stood at sweep-construction time, and in fast mode the
effective maximum is at most 64. -/
theorem c4_sweep_bounds (fast : Bool) (cfgMax : Int) (mode : String)
    (networksNonempty : Bool) (sweepNet : Option Net) (cands : List String) :
    (1 ≤ effectiveMaxHosts fast cfgMax →
      ((buildSweep mode networksNonempty sweepNet (effectiveMaxHosts fast cfgMax)
          cands).length : Int) ≤ effectiveMaxHosts fast cfgMax) ∧
    (∀ ip ∈ buildSweep mode networksNonempty sweepNet (effectiveMaxHosts fast cfgMax)
        cands, ¬ ip ∈ cands) ∧
    (fast = true → effectiveMaxHosts fast cfgMax ≤ 64) := by
  refine ⟨?_, ?_, ?_⟩
  · intro h1
    unfold buildSweep
    by_cases hm : mode = "bounded_sweep" ∧ networksNonempty = true
    · rw [if_pos hm]
      cases sweepNet with
      | none => simp; omega
      | some net =>
        have := sweepLoop_length_le cands (effectiveMaxHosts fast cfgMax)
          ((netHosts net).map ipToStr) 0 (by omega)
        show ((sweepLoop cands (effectiveMaxHosts fast cfgMax)
          ((netHosts net).map ipToStr) 0).length : Int) ≤ effectiveMaxHosts fast cfgMax
        omega
    · rw [if_neg hm]; simp; omega
  · intro ip hip
    unfold buildSweep at hip
    by_cases hm : mode = "bounded_sweep" ∧ networksNonempty = true
    · rw [if_pos hm] at hip
      cases sweepNet with
      | none => simp at hip
      | some net =>
        have hip' : ip ∈ sweepLoop cands (effectiveMaxHosts fast cfgMax)
            ((netHosts net).map ipToStr) 0 := hip
        exact sweepLoop_not_mem_candidates cands _ _ _ ip hip'
    · rw [if_neg hm] at hip; simp at hip
  · intro hf
    simp only [effectiveMaxHosts, hf, if_pos]
    omega

/-- C4 witness: over 10.0.0.0/30 with one pre-existing candidate and the
default configured maximum 256, the sweep respects the cap and avoids the
candidate. -/
theorem c4_witness :
    ((buildSweep "bounded_sweep" true (some ⟨167772160, 30⟩)
        (effectiveMaxHosts false 256) ["10.0.0.1"]).length : Int)
      ≤ effectiveMaxHosts false 256 ∧
    (∀ ip ∈ buildSweep "bounded_sweep" true (some ⟨167772160, 30⟩)
        (effectiveMaxHosts false 256) ["10.0.0.1"], ¬ ip ∈ ["10.0.0.1"]) := by
  have h := c4_sweep_bounds false 256 "bounded_sweep" true (some ⟨167772160, 30⟩)
    ["10.0.0.1"]
  exact ⟨h.1 (by decide), h.2.1⟩

/-- C6: when more than 40 sweep IPs did not answer ping (and the phase runs:
not fast, default ports configured), the evenly spaced 20-element sample is
probed, and if more than 16 of it answer, transparent_proxy_detected is true
and the probed set is exactly the sample — no remaining non-responder is
probed. -/
theorem c6_transparent_sample (sweepLen : Nat) (nonPing : List String)
    (probeHit : String → Bool)
    (hlen : 40 < nonPing.length)
    (hhits : 16 < ((sampleIps nonPing).filter probeHit).length) :
    (transparentPhase false true sweepLen nonPing probeHit).1 = true ∧
    (transparentPhase false true sweepLen nonPing probeHit).2.2 = sampleIps nonPing ∧
    (sampleIps nonPing).length = 20 ∧
    (∀ i, i < 20 →
      (sampleIps nonPing).getD i "" = nonPing.getD (i * (nonPing.length / 20)) "") := by
  have hne : nonPing ≠ [] := by
    intro h; rw [h] at hlen; simp at hlen
  have hphase : transparentPhase false true sweepLen nonPing probeHit =
      (true || (2 * ((sampleIps nonPing).filter probeHit).length > sweepLen ∧
        ((sampleIps nonPing).filter probeHit).length > 20 : Bool),
       ((sampleIps nonPing).filter probeHit).length, sampleIps nonPing) := by
    unfold transparentPhase
    rw [if_pos ⟨hne, by simp, rfl⟩]
    simp only [if_pos hlen, if_pos hhits]
  refine ⟨by rw [hphase]; simp, by rw [hphase], ?_, ?_⟩
  · simp [sampleIps]
  · intro i hi
    simp only [sampleIps, sampleStepOf]
    rw [List.getD_eq_getElem?_getD, List.getElem?_map,
      List.getElem?_range (by simpa using hi)]
    rfl

/-- C6 witness: 41 non-responders named "0".."40"; the sample is the 20
even-indexed ones, the oracle answers for 18 of them (all but "0" and "2"),
which exceeds the 80% threshold: the flag is set and only the sample was
probed. -/
theorem c6_witness :
    (transparentPhase false true 300 ((List.range 41).map (fun i => toString i))
      (fun s => decide (s ≠ "0" ∧ s ≠ "2"))).1 = true ∧
    (transparentPhase false true 300 ((List.range 41).map (fun i => toString i))
      (fun s => decide (s ≠ "0" ∧ s ≠ "2"))).2.2
      = sampleIps ((List.range 41).map (fun i => toString i)) := by
  have h := c6_transparent_sample 300 ((List.range 41).map (fun i => toString i))
    (fun s => decide (s ≠ "0" ∧ s ≠ "2")) (by decide) (by decide)
  exact ⟨h.1, h.2.1⟩

/-- C8 counterexample: a detected network 10.0.0.0/24, a host address
192.168.1.5 inside no detected network, and a gateway 10.0.0.1 inside the
detected network.  The claim's rule selects the gateway's network
10.0.0.0/24, but the source returns the first host address's /24
(192.168.1.0/24): the `return` on line 125 is inside the host loop, so a
host address outside every detected network preempts the gateway branch. -/
theorem c8_counterexample :
    (∀ n ∈ [(⟨167772160, 24⟩ : Net)], memNet 3232235781 n = false) ∧
    memNet 167772161 ⟨167772160, 24⟩ = true ∧
    preferredSweepNetwork [⟨167772160, 24⟩] (some 167772161) [3232235781]
      = some ⟨3232235776, 24⟩ ∧
    (⟨3232235776, 24⟩ : Net) ≠ ⟨167772160, 24⟩ := by
  decide

/-- C8 amended: only the first parseable host address is consulted — if it
lies in some detected network the first such network is chosen (tightened
to the host-anchored /24 when its prefix is shorter than /24), otherwise the
host's /24 is chosen unconditionally; only with no host address is the
gateway consulted with the same rule (its /24 when it lies in no detected
network); only with no host address and no gateway is the smallest detected
network by address count chosen, and none when there are no networks
either. -/
theorem c8_preferred_network (networks : List Net) (gatewayIp : Option Nat)
    (hostIps : List Nat) :
    (∀ hip rest pre n post, hostIps = hip :: rest → networks = pre ++ n :: post →
      memNet hip n = true → (∀ m ∈ pre, memNet hip m = false) →
      preferredSweepNetwork networks gatewayIp hostIps = some (tighten n hip)) ∧
    (∀ hip rest, hostIps = hip :: rest → (∀ m ∈ networks, memNet hip m = false) →
      preferredSweepNetwork networks gatewayIp hostIps = some (host24 hip)) ∧
    (∀ gw pre n post, hostIps = [] → gatewayIp = some gw →
      networks = pre ++ n :: post →
      memNet gw n = true → (∀ m ∈ pre, memNet gw m = false) →
      preferredSweepNetwork networks gatewayIp hostIps = some (tighten n gw)) ∧
    (∀ gw, hostIps = [] → gatewayIp = some gw →
      (∀ m ∈ networks, memNet gw m = false) →
      preferredSweepNetwork networks gatewayIp hostIps = some (host24 gw)) ∧
    (hostIps = [] → gatewayIp = none → networks = [] →
      preferredSweepNetwork networks gatewayIp hostIps = none) ∧
    (hostIps = [] → gatewayIp = none → networks ≠ [] →
      ∃ m, preferredSweepNetwork networks gatewayIp hostIps = some m ∧
        m ∈ networks ∧ ∀ k ∈ networks, netSize m ≤ netSize k) := by
  refine ⟨?_, ?_, ?_, ?_, ?_, ?_⟩
  · intro hip rest pre n post hh hn hmem hpre
    subst hh; subst hn
    simp only [preferredSweepNetwork]
    rw [find?_of_first _ pre n post hpre hmem]
  · intro hip rest hh hnone
    subst hh
    simp only [preferredSweepNetwork]
    rw [List.find?_eq_none.mpr (fun m hm => by simp [hnone m hm])]
  · intro gw pre n post hh hg hn hmem hpre
    subst hh; subst hn; subst hg
    simp only [preferredSweepNetwork]
    rw [find?_of_first _ pre n post hpre hmem]
  · intro gw hh hg hnone
    subst hh; subst hg
    simp only [preferredSweepNetwork]
    rw [List.find?_eq_none.mpr (fun m hm => by simp [hnone m hm])]
  · intro hh hg hn
    subst hh; subst hg; subst hn
    rfl
  · intro hh hg hn
    subst hh; subst hg
    cases networks with
    | nil => exact absurd rfl hn
    | cons n0 t =>
      obtain ⟨m, hm, hmem, hmin⟩ := minByNumAddresses_spec n0 t
      exact ⟨m, hm, hmem, hmin⟩

/-- C8 witness: with no host addresses, a gateway 10.0.0.1 inside the loosely
masked detected network 10.0.0.0/16, the chosen sweep network is the
gateway-anchored /24 tightening 10.0.0.0/24. -/
theorem c8_witness :
    preferredSweepNetwork [⟨167772160, 16⟩] (some 167772161) []
      = some (tighten ⟨167772160, 16⟩ 167772161) := by
  exact (c8_preferred_network [⟨167772160, 16⟩] (some 167772161) []).2.2.1
    167772161 [] ⟨167772160, 16⟩ [] rfl rfl rfl (by decide) (by intro m hm; simp at hm)

/-! ## C5 lemma stack: the group-flag invariant through every pipeline stage -/

theorem insertSorted_mem {α : Type} (le : α → α → Bool) (a x : α) :
    ∀ t : List α, x ∈ insertSorted le a t → x = a ∨ x ∈ t := by
  intro t
  induction t with
  | nil => intro h; simpa [insertSorted] using h
  | cons b s ih =>
    intro h
    unfold insertSorted at h
    by_cases hle : le b a = true
    · rw [if_pos hle] at h
      rcases List.mem_cons.mp h with rfl | h'
      · exact Or.inr (List.mem_cons_self _ _)
      · rcases ih h' with h'' | h''
        · exact Or.inl h''
        · exact Or.inr (List.mem_cons_of_mem _ h'')
    · rw [if_neg hle] at h
      rcases List.mem_cons.mp h with rfl | h'
      · exact Or.inl rfl
      · exact Or.inr h'

theorem pySorted_mem {α : Type} (le : α → α → Bool) (x : α) :
    ∀ (l init : List α),
      x ∈ l.foldl (fun acc a => insertSorted le a acc) init → x ∈ init ∨ x ∈ l := by
  intro l
  induction l with
  | nil => intro init h; exact Or.inl h
  | cons a t ih =>
    intro init h
    rcases ih (insertSorted le a init) h with h' | h'
    · rcases insertSorted_mem le a x init h' with rfl | h''
      · exact Or.inr (List.mem_cons_self _ _)
      · exact Or.inl h''
    · exact Or.inr (List.mem_cons_of_mem _ h')

theorem upsertIface_mem {l : List Iface} {pay i : Iface}
    (h : i ∈ upsertIface l pay) : i = pay ∨ i ∈ l := by
  induction l with
  | nil => simpa [upsertIface] using h
  | cons b t ih =>
    unfold upsertIface at h
    by_cases hip : b.ip = pay.ip
    · rw [if_pos hip] at h
      rcases List.mem_cons.mp h with rfl | h'
      · exact Or.inl rfl
      · exact Or.inr (List.mem_cons_of_mem _ h')
    · rw [if_neg hip] at h
      rcases List.mem_cons.mp h with rfl | h'
      · exact Or.inr (List.mem_cons_self _ _)
      · rcases ih h' with h'' | h''
        · exact Or.inl h''
        · exact Or.inr (List.mem_cons_of_mem _ h'')

theorem extendIfAbsent_mem {C : List (String × Group)} {k : String} {g0 : Group}
    {p : String × Group} (h : p ∈ extendIfAbsent C k g0) : p ∈ C ∨ p = (k, g0) := by
  unfold extendIfAbsent at h
  cases hk : dictGet C k with
  | some g =>
    rw [hk] at h
    exact Or.inl h
  | none =>
    rw [hk] at h
    rcases List.mem_append.mp h with h' | h'
    · exact Or.inl h'
    · exact Or.inr (List.mem_singleton.mp h')

theorem updateGroupAt_mem_sound {P : Group → Prop} {C : List (String × Group)}
    {k : String} {f : Group → Group}
    (hC : ∀ p ∈ C, P p.2) (hf : ∀ g, P g → P (f g)) :
    ∀ p ∈ updateGroupAt C k f, P p.2 := by
  intro p hp
  unfold updateGroupAt at hp
  cases hk : dictGet C k with
  | some g =>
    rw [hk] at hp
    rcases dictSet_mem hp with heq | hold
    · rw [heq]
      exact hf g (hC (k, g) (dictGet_mem hk))
    · exact hC p hold
  | none =>
    rw [hk] at hp
    exact hC p hp

theorem markHostGroup_sound {H : List String} {g : Group}
    (hostMacs : List String) (kd : KnownDevice) (hg : SeedSound H g) :
    SeedSound H (markHostGroup H hostMacs kd g) := by
  unfold markHostGroup
  split
  · exact ⟨⟨hg.1.1, hg.1.2⟩, hg.2⟩
  · exact hg

theorem seedAppendIface_sound {H : List String} {g : Group} (kd : KnownDevice)
    (hg : SeedSound H g) : SeedSound H (seedAppendIface H kd g) := by
  unfold seedAppendIface
  cases hk : kdIp kd with
  | none => exact hg
  | some mip =>
    show SeedSound H (seedAppendIfaceSome H kd mip g)
    simp only [seedAppendIfaceSome]
    by_cases hmem : mip ∈ H
    · rw [if_pos hmem]
      constructor
      · exact ⟨fun _ => rfl, fun _ => rfl⟩
      · intro i hi hip
        rcases List.mem_append.mp hi with hold | hnew
        · split at hold
          · exact hg.2 i hold hip
          · exact hg.2 i hold hip
        · rcases List.mem_singleton.mp hnew with rfl
          show decide (mip ∈ H) = true
          exact decide_eq_true hmem
    · rw [if_neg hmem]
      have hup : (seedIfaceOf H kd (kdMac kd) mip).up = false := by
        simp [seedIfaceOf, hmem]
      have hobs : (seedIfaceOf H kd (kdMac kd) mip).observed = false := by
        simp [seedIfaceOf, hmem]
      have hipf : (seedIfaceOf H kd (kdMac kd) mip).ip = mip := rfl
      split
      all_goals
        refine ⟨⟨?_, ?_⟩, ?_⟩
      all_goals
        first
        | (rintro ⟨i, hi, hiflag⟩
           rcases List.mem_append.mp hi with hold | hnew
           · first
             | exact hg.1.1 ⟨i, hold, hiflag⟩
             | exact hg.1.2 ⟨i, hold, hiflag⟩
           · rcases List.mem_singleton.mp hnew with rfl
             first
             | (rw [hup] at hiflag; exact absurd hiflag (by simp))
             | (rw [hobs] at hiflag; exact absurd hiflag (by simp)))
        | (intro i hi hip
           rcases List.mem_append.mp hi with hold | hnew
           · exact hg.2 i hold hip
           · rcases List.mem_singleton.mp hnew with rfl
             rw [hipf] at hip
             exact absurd hip hmem)

theorem seedGroupUpdate_sound {H : List String} {g : Group}
    (hostMacs : List String) (kd : KnownDevice) (hg : SeedSound H g) :
    SeedSound H (seedGroupUpdate H hostMacs kd g) :=
  seedAppendIface_sound kd (markHostGroup_sound hostMacs kd hg)

theorem emptyGroup_sound (H : List String) (bn : String) (mac0 : Option String)
    (notes0 : String) : SeedSound H (emptyGroup bn mac0 notes0) := by
  refine ⟨⟨?_, ?_⟩, ?_⟩
  · rintro ⟨i, hi, _⟩
    exact absurd hi (by simp [emptyGroup])
  · rintro ⟨i, hi, _⟩
    exact absurd hi (by simp [emptyGroup])
  · intro i hi
    exact absurd hi (by simp [emptyGroup])

theorem seedStep_sound (H hostMacs : List String) (bnf : String → String)
    (st : SeedState) (kd : KnownDevice)
    (h : ∀ p ∈ st.combined, SeedSound H p.2) :
    ∀ p ∈ (seedStep H hostMacs bnf st kd).combined, SeedSound H p.2 := by
  intro p hp
  have hp' : p ∈ updateGroupAt
      (extendIfAbsent st.combined (bnf kd.name)
        (emptyGroup (bnf kd.name) (kdMac kd) kd.notes))
      (bnf kd.name) (seedGroupUpdate H hostMacs kd) := hp
  refine updateGroupAt_mem_sound ?_ ?_ p hp'
  · intro q hq
    rcases extendIfAbsent_mem hq with hq' | heq
    · exact h q hq'
    · rw [heq]
      exact emptyGroup_sound H _ _ _
  · intro g hgs
    exact seedGroupUpdate_sound hostMacs kd hgs

theorem seedFold_sound (H hostMacs : List String) (bnf : String → String) :
    ∀ (kds : List KnownDevice) (st : SeedState),
      (∀ p ∈ st.combined, SeedSound H p.2) →
      ∀ p ∈ (kds.foldl (seedStep H hostMacs bnf) st).combined, SeedSound H p.2 := by
  intro kds
  induction kds with
  | nil => intro st h; exact h
  | cons kd t ih =>
    intro st h
    exact ih (seedStep H hostMacs bnf st kd) (seedStep_sound H hostMacs bnf st kd h)

theorem seedKnownState_sound (H hostMacs : List String) (bnf : String → String)
    (known : List KnownDevice) :
    ∀ p ∈ (seedKnownState H hostMacs bnf known).combined, SeedSound H p.2 := by
  intro p hp
  exact seedFold_sound H hostMacs bnf known ⟨[], [], [], []⟩
    (by intro q hq; exact absurd hq (by simp)) p hp

theorem hostIfacePorts_fields (o : String → Nat → Bool) (H : List String)
    (i : Iface) (hi : i.ip ∈ H → i.up = true) :
    (hostIfacePorts o H i).up = i.up ∧
    (hostIfacePorts o H i).observed = i.observed ∧
    (hostIfacePorts o H i).ip = i.ip := by
  unfold hostIfacePorts
  by_cases hc : i.ip ∈ H ∧ i.ports ≠ []
  · rw [if_pos hc]
    refine ⟨?_, rfl, rfl⟩
    have hup := hi hc.1
    show (if (i.ports.map (fun pb => (pb.1, o i.ip pb.1))).any (fun pb => pb.2)
        then true else i.up) = i.up
    rw [hup]
    split <;> rfl
  · rw [if_neg hc]
    exact ⟨rfl, rfl, rfl⟩

theorem hostPortCheck_sound (o : String → Nat → Bool) (H : List String)
    (C : List (String × Group)) (hC : ∀ p ∈ C, SeedSound H p.2) :
    ∀ p ∈ hostPortCheck o H C, GroupSound p.2 := by
  intro p hp
  unfold hostPortCheck at hp
  obtain ⟨q, hq, rfl⟩ := List.mem_map.mp hp
  have hs := hC q hq
  by_cases hh : q.2.is_host = true
  · rw [if_pos hh]
    constructor
    · rintro ⟨i', hi', hup⟩
      show q.2.up = true
      obtain ⟨i, hi, rfl⟩ := List.mem_map.mp hi'
      have hf := hostIfacePorts_fields o H i (fun hm => hs.2 i hi hm)
      exact hs.1.1 ⟨i, hi, by rw [← hf.1]; exact hup⟩
    · rintro ⟨i', hi', hobs⟩
      show q.2.missing = false
      obtain ⟨i, hi, rfl⟩ := List.mem_map.mp hi'
      have hf := hostIfacePorts_fields o H i (fun hm => hs.2 i hi hm)
      exact hs.1.2 ⟨i, hi, by rw [← hf.2.1]; exact hobs⟩
  · rw [if_neg hh]
    exact hs.1

theorem applyDevUpdates_up (dev : Discovered) (pay : Iface) (g : Group) :
    (applyDevUpdates dev pay g).up = (g.up || dev.up) := by
  simp only [applyDevUpdates]
  repeat' split
  all_goals rfl

theorem applyDevUpdates_missing (dev : Discovered) (pay : Iface) (g : Group) :
    (applyDevUpdates dev pay g).missing = false := by
  simp only [applyDevUpdates]
  repeat' split
  all_goals rfl

theorem applyDevUpdates_interfaces (dev : Discovered) (pay : Iface) (g : Group) :
    (applyDevUpdates dev pay g).interfaces = upsertIface g.interfaces pay := by
  simp only [applyDevUpdates]
  repeat' split
  all_goals rfl

theorem applyDevUpdates_sound (dev : Discovered) (pay : Iface) (g : Group)
    (hpu : pay.up = dev.up) (hg : GroupSound g) :
    GroupSound (applyDevUpdates dev pay g) := by
  constructor
  · rintro ⟨i, hi, hiup⟩
    rw [applyDevUpdates_up]
    rw [applyDevUpdates_interfaces] at hi
    rcases upsertIface_mem hi with rfl | hold
    · rw [hpu] at hiup
      rw [hiup]
      simp
    · rw [hg.1 ⟨i, hold, hiup⟩]
      simp
  · intro _
    rw [applyDevUpdates_missing]

theorem devNewGroup_sound (hostname target bn : String) (mac : Option String)
    (dev : Discovered) : GroupSound (devNewGroup hostname target bn mac dev) := by
  constructor
  · rintro ⟨i, hi, _⟩
    exact absurd hi (by simp [devNewGroup])
  · intro _
    rfl

theorem foldDev_sound (gatewayIp : Option String) (hostGrpName hostname : String)
    (bnf : String → String) (m1 m2 m3 : List (String × String))
    (C : List (String × Group)) (dev : Discovered)
    (hC : ∀ p ∈ C, GroupSound p.2) :
    ∀ p ∈ foldDev gatewayIp hostGrpName hostname bnf m1 m2 m3 C dev,
      GroupSound p.2 := by
  intro p hp
  refine updateGroupAt_mem_sound ?_ ?_ p hp
  · intro q hq
    rcases extendIfAbsent_mem hq with hq' | heq
    · exact hC q hq'
    · rw [heq]
      exact devNewGroup_sound _ _ _ _ _
  · intro g hgs
    exact applyDevUpdates_sound dev _ g rfl hgs

theorem devsFold_sound (gatewayIp : Option String) (hostGrpName hostname : String)
    (bnf : String → String) (m1 m2 m3 : List (String × String)) :
    ∀ (devs : List Discovered) (C : List (String × Group)),
      (∀ p ∈ C, GroupSound p.2) →
      ∀ p ∈ devs.foldl (foldDev gatewayIp hostGrpName hostname bnf m1 m2 m3) C,
        GroupSound p.2 := by
  intro devs
  induction devs with
  | nil => intro C h; exact h
  | cons dev t ih =>
    intro C h
    exact ih _ (foldDev_sound gatewayIp hostGrpName hostname bnf m1 m2 m3 C dev h)

theorem foldl_dictSet_mem {P : Iface → Prop} :
    ∀ (l : List Iface) (init : List (String × Iface)),
      (∀ q ∈ init, P q.2) → (∀ i ∈ l, P i) →
      ∀ p ∈ l.foldl (fun mp i => if i.ip ≠ "" then dictSet mp i.ip i else mp) init,
        P p.2 := by
  intro l
  induction l with
  | nil => intro init h _ p hp; exact h p hp
  | cons i t ih =>
    intro init hinit hl p hp
    simp only [List.foldl_cons] at hp
    refine ih _ ?_ (fun j hj => hl j (List.mem_cons_of_mem _ hj)) p hp
    intro q hq
    by_cases hip : i.ip ≠ ""
    · rw [if_pos hip] at hq
      rcases dictSet_mem hq with heq | hq'
      · rw [heq]
        exact hl i (List.mem_cons_self _ _)
      · exact hinit q hq'
    · rw [if_neg hip] at hq
      exact hinit q hq

theorem ifaceByIpDict_mem (ifs : List Iface) :
    ∀ p ∈ ifaceByIpDict ifs, p.2 ∈ ifs := by
  intro p hp
  exact foldl_dictSet_mem (P := fun j => j ∈ ifs) ifs []
    (by intro q hq; exact absurd hq (by simp)) (fun i h => h) p hp

theorem foldl_addIface_mem {P : Iface → Prop} :
    ∀ (l : List Iface) (init : List (String × Iface)),
      (∀ q ∈ init, P q.2) → (∀ i ∈ l, P i) →
      ∀ p ∈ l.foldl
        (fun mp i =>
          if i.ip = "" then mp
          else match dictGet mp i.ip with
            | some _ => mp
            | none => mp ++ [(i.ip, i)]) init,
        P p.2 := by
  intro l
  induction l with
  | nil => intro init h _ p hp; exact h p hp
  | cons i t ih =>
    intro init hinit hl p hp
    simp only [List.foldl_cons] at hp
    refine ih _ ?_ (fun j hj => hl j (List.mem_cons_of_mem _ hj)) p hp
    intro q hq
    by_cases hip : i.ip = ""
    · rw [if_pos hip] at hq
      exact hinit q hq
    · rw [if_neg hip] at hq
      cases hk : dictGet init i.ip with
      | some v =>
        rw [hk] at hq
        exact hinit q hq
      | none =>
        rw [hk] at hq
        rcases List.mem_append.mp hq with hq' | hq'
        · exact hinit q hq'
        · rcases List.mem_singleton.mp hq' with rfl
          exact hl i (List.mem_cons_self _ _)

theorem mergeTwo_iface_mem (t g : Group) :
    ∀ i ∈ (mergeTwo t g).interfaces, i ∈ t.interfaces ∨ i ∈ g.interfaces := by
  intro i hi
  have hi' : i ∈ (g.interfaces.foldl
      (fun mp j =>
        if j.ip = "" then mp
        else match dictGet mp j.ip with
          | some _ => mp
          | none => mp ++ [(j.ip, j)])
      (ifaceByIpDict t.interfaces)).map (fun p => p.2) := hi
  obtain ⟨p, hp, rfl⟩ := List.mem_map.mp hi'
  exact foldl_addIface_mem (P := fun j => j ∈ t.interfaces ∨ j ∈ g.interfaces)
    g.interfaces _ (fun q hq => Or.inl (ifaceByIpDict_mem t.interfaces q hq))
    (fun j hj => Or.inr hj) p hp

theorem mergeTwo_sound (t g : Group) (ht : GroupSound t) (hgg : GroupSound g) :
    GroupSound (mergeTwo t g) := by
  constructor
  · rintro ⟨i, hi, hup⟩
    show (t.up || g.up) = true
    rcases mergeTwo_iface_mem t g i hi with h | h
    · rw [ht.1 ⟨i, h, hup⟩]
      simp
    · rw [hgg.1 ⟨i, h, hup⟩]
      simp
  · rintro ⟨i, hi, hobs⟩
    show (t.missing && g.missing) = false
    rcases mergeTwo_iface_mem t g i hi with h | h
    · rw [ht.2 ⟨i, h, hobs⟩]
      simp
    · rw [hgg.2 ⟨i, h, hobs⟩]
      simp

theorem mergeStep_sound (bnf : String → String) (merged : List (String × Group))
    (g : Group) (hM : ∀ p ∈ merged, GroupSound p.2) (hg : GroupSound g) :
    ∀ p ∈ mergeStep bnf merged g, GroupSound p.2 := by
  intro p hp
  unfold mergeStep at hp
  cases hk : dictGet merged (strLower (bnf g.name)) with
  | none =>
    rw [hk] at hp
    rcases List.mem_append.mp hp with hp' | hp'
    · exact hM p hp'
    · rcases List.mem_singleton.mp hp' with rfl
      exact hg
  | some t =>
    rw [hk] at hp
    rcases dictSet_mem hp with heq | hold
    · rw [heq]
      exact mergeTwo_sound t g (hM _ (dictGet_mem hk)) hg
    · exact hM p hold

theorem mergeFold_sound (bnf : String → String) :
    ∀ (gs : List Group) (init : List (String × Group)),
      (∀ p ∈ init, GroupSound p.2) → (∀ g ∈ gs, GroupSound g) →
      ∀ p ∈ gs.foldl (mergeStep bnf) init, GroupSound p.2 := by
  intro gs
  induction gs with
  | nil => intro init h _ p hp; exact h p hp
  | cons g t ih =>
    intro init hinit hgs p hp
    exact ih (mergeStep bnf init g)
      (mergeStep_sound bnf init g hinit (hgs g (List.mem_cons_self _ _)))
      (fun j hj => hgs j (List.mem_cons_of_mem _ hj)) p hp

theorem mergeKnownGroups_sound (bnf : String → String) (gs : List Group)
    (h : ∀ g ∈ gs, GroupSound g) :
    ∀ g ∈ mergeKnownGroups bnf gs, GroupSound g := by
  intro g hg
  unfold mergeKnownGroups at hg
  obtain ⟨p, hp, rfl⟩ := List.mem_map.mp hg
  exact mergeFold_sound bnf gs [] (by intro q hq; exact absurd hq (by simp)) h p hp

/-- C5 amended: for every group in either output list of a discovery cycle,
any interface that is up implies the group is up, and any interface that
reports an observed IP implies the group is not missing.  (The converses —
group up = OR of final interface ups, and missing false only with an
observed interface — fail; see the counterexample.) -/
theorem c5_group_flags (known : List KnownDevice) (hostIpsAll hostMacs : List String)
    (bnf : String → String) (hostname : String) (oracle : String → Nat → Bool)
    (gatewayIp : Option String) (devs : List Discovered) (g : Group)
    (hmem : g ∈ (discoveryGroups known hostIpsAll hostMacs bnf hostname oracle
        gatewayIp devs).1 ∨
      g ∈ (discoveryGroups known hostIpsAll hostMacs bnf hostname oracle
        gatewayIp devs).2) :
    ((∃ i ∈ g.interfaces, i.up = true) → g.up = true) ∧
    ((∃ i ∈ g.interfaces, i.observed = true) → g.missing = false) := by
  have hseed := seedKnownState_sound hostIpsAll hostMacs bnf known
  have hpc := hostPortCheck_sound oracle hostIpsAll
    (seedKnownState hostIpsAll hostMacs bnf known).combined hseed
  have hfold := devsFold_sound gatewayIp
    (hostGroupName (seedKnownState hostIpsAll hostMacs bnf known).combined)
    hostname bnf
    (seedKnownState hostIpsAll hostMacs bnf known).macToGroup
    (seedKnownState hostIpsAll hostMacs bnf known).nameToGroup
    (seedKnownState hostIpsAll hostMacs bnf known).ipToGroup
    devs
    (hostPortCheck oracle hostIpsAll
      (seedKnownState hostIpsAll hostMacs bnf known).combined)
    hpc
  have hvals : ∀ g' ∈ (devs.foldl
      (foldDev gatewayIp
        (hostGroupName (seedKnownState hostIpsAll hostMacs bnf known).combined)
        hostname bnf
        (seedKnownState hostIpsAll hostMacs bnf known).macToGroup
        (seedKnownState hostIpsAll hostMacs bnf known).nameToGroup
        (seedKnownState hostIpsAll hostMacs bnf known).ipToGroup)
      (hostPortCheck oracle hostIpsAll
        (seedKnownState hostIpsAll hostMacs bnf known).combined)).map
        (fun p => p.2), GroupSound g' := by
    intro g' hg'
    obtain ⟨p, hp, rfl⟩ := List.mem_map.mp hg'
    exact hfold p hp
  rcases hmem with hm | hm
  · have hm' := pySorted_mem knownLe g _ [] hm
    rcases hm' with hm' | hm'
    · exact absurd hm' (by simp)
    · refine mergeKnownGroups_sound bnf _ ?_ g hm'
      intro g' hg'
      exact hvals g' (List.mem_of_mem_filter hg')
  · have hm' := pySorted_mem discLe g _ [] hm
    rcases hm' with hm' | hm'
    · exact absurd hm' (by simp)
    · exact hvals g (List.mem_of_mem_filter hm')

/-- C5 witness: a cycle with no known devices and one discovered device that
is up yields a discovered group whose interface is up, hence the group is up
and not missing. -/
theorem c5_witness :
    ((discoveryGroups [] [] [] (fun s => s) "h" (fun _ _ => false) none
      [⟨"10.0.0.9", "box", none, false, "", true, [], true, none, "Wired",
        false⟩]).2.getD 0 (emptyGroup "" none "")).up = true ∧
    ((discoveryGroups [] [] [] (fun s => s) "h" (fun _ _ => false) none
      [⟨"10.0.0.9", "box", none, false, "", true, [], true, none, "Wired",
        false⟩]).2.getD 0 (emptyGroup "" none "")).missing = false := by
  have h := c5_group_flags [] [] [] (fun s => s) "h" (fun _ _ => false) none
    [⟨"10.0.0.9", "box", none, false, "", true, [], true, none, "Wired", false⟩]
    ((discoveryGroups [] [] [] (fun s => s) "h" (fun _ _ => false) none
      [⟨"10.0.0.9", "box", none, false, "", true, [], true, none, "Wired",
        false⟩]).2.getD 0 (emptyGroup "" none ""))
    (Or.inr (by decide))
  exact ⟨h.1 (by decide), h.2 (by decide)⟩

/-- C5 counterexample: in the concrete cycle `c5Example` the claim fails in
both directions.  The "Self" group (index 1 of known_devices) keeps up = True
from its host-owned seeded interface although the interface upsert of the
folded-in discovered device lowered its only interface's up to False — so
group up is not the OR of its interfaces' up.  The merged "Printer"/"printer"
group (index 0) has missing = False — AND-combined from the absorbed
"printer" group — although its only surviving interface is the seeded,
unobserved one from "Printer", so missing is False with no interface
reporting an observed IP. -/
theorem c5_counterexample :
    (c5Example.1.getD 1 (emptyGroup "" none "")).up = true ∧
    (c5Example.1.getD 1 (emptyGroup "" none "")).interfaces.all
      (fun i => !i.up) = true ∧
    (c5Example.1.getD 1 (emptyGroup "" none "")).interfaces ≠ [] ∧
    (c5Example.1.getD 0 (emptyGroup "" none "")).missing = false ∧
    (c5Example.1.getD 0 (emptyGroup "" none "")).interfaces.all
      (fun i => !i.observed) = true ∧
    (c5Example.1.getD 0 (emptyGroup "" none "")).interfaces ≠ [] := by
  decide

/-- C10: concurrency_from_env returns the positive default when the variable
is unset, unparseable, or parses to a value ≤ 0, and the parsed value
otherwise; hence every concurrency bound, including after the macOS clamp
`_cap_concurrency` with its positive platform limits, is positive. -/
theorem c10_concurrency_env (env : Option String) (default mac_limit : Int)
    (darwin : Bool) (hdef : 0 < default) (hmac : 0 < mac_limit) :
    (env = none → concurrency_from_env env default = default) ∧
    (∀ v, env = some v → pyParseInt v = none →
      concurrency_from_env env default = default) ∧
    (∀ v n, env = some v → pyParseInt v = some n → n ≤ 0 →
      concurrency_from_env env default = default) ∧
    (∀ v n, env = some v → pyParseInt v = some n → 0 < n →
      concurrency_from_env env default = n) ∧
    0 < concurrency_from_env env default ∧
    0 < _cap_concurrency darwin (concurrency_from_env env default) mac_limit := by
  have hpos : 0 < concurrency_from_env env default := by
    cases env with
    | none => simpa [concurrency_from_env] using hdef
    | some v =>
      cases hp : pyParseInt v with
      | none => simpa [concurrency_from_env, hp] using hdef
      | some n =>
        by_cases hn : n ≤ 0
        · simpa [concurrency_from_env, hp, hn] using hdef
        · simp only [concurrency_from_env, hp, if_neg hn]
          omega
  refine ⟨?_, ?_, ?_, ?_, hpos, ?_⟩
  · intro h; simp [concurrency_from_env, h]
  · intro v hv hp; simp [concurrency_from_env, hv, hp]
  · intro v n hv hp hn; simp [concurrency_from_env, hv, hp, hn]
  · intro v n hv hp hn
    have hn' : ¬ n ≤ 0 := by omega
    simp [concurrency_from_env, hv, hp, hn']
  · cases darwin with
    | false => simpa [_cap_concurrency] using hpos
    | true =>
      simp only [_cap_concurrency, if_pos]
      exact lt_min hpos hmac

/-- C10 witness: with NETDASH_PING_CONCURRENCY set to "64", default 96 and
macOS clamp 32 as at src/netdash/discovery.py line 806, the parsed value is
used and the clamped bound is positive. -/
theorem c10_witness :
    concurrency_from_env (some "64") 96 = 64 ∧
    0 < _cap_concurrency true (concurrency_from_env (some "64") 96) 32 := by
  have h := c10_concurrency_env (some "64") 96 32 true (by decide) (by decide)
  exact ⟨h.2.2.2.1 "64" 64 rfl (by decide) (by decide), h.2.2.2.2.2⟩

/-- C2 counterexample: the claim says an IP match outranks any MAC-only match,
but match_known scans devices in declaration order and inside the loop tests
one device's IP then its MAC condition.  With device "A" declared first
matching only by MAC and device "B" declared second whose match.ip equals the
observed IP, match_known returns "A", a device that does not IP-match, even
though "B" IP-matches. -/
theorem c2_counterexample :
    match_known
      [⟨"A", none, some "aa:bb:cc:dd:ee:ff", [], ""⟩,
       ⟨"B", some "10.0.0.5", none, [], ""⟩]
      "10.0.0.5" (some "AA-BB-CC-DD-EE-FF")
      = some ⟨"A", none, some "aa:bb:cc:dd:ee:ff", [], ""⟩ ∧
    ipMatches ⟨"B", some "10.0.0.5", none, [], ""⟩ "10.0.0.5" = true ∧
    ipMatches ⟨"A", none, some "aa:bb:cc:dd:ee:ff", [], ""⟩ "10.0.0.5" = false := by
  refine ⟨?_, by decide, by decide⟩
  rfl

/-- C2 amended: known-device matching is deterministic with declaration-order
precedence — match_known returns none exactly when no configured device
matches the observed (ip, mac) by its IP or MAC field, and otherwise returns
the first device in declaration order that matches (inside one device the IP
test precedes the MAC test); in particular when two devices' match.ip both
equal the observed IP the earlier-declared one is returned. -/
theorem c2_match_order (known : List KnownDevice) (ip : String) (mac : Option String) :
    (match_known known ip mac = none ↔ ∀ k ∈ known, devMatches k ip mac = false) ∧
    (∀ k, match_known known ip mac = some k →
      devMatches k ip mac = true ∧
      ∃ pre post, known = pre ++ k :: post ∧
        ∀ k' ∈ pre, devMatches k' ip mac = false) := by
  induction known with
  | nil =>
    refine ⟨by simp [match_known], ?_⟩
    intro k h; simp [match_known] at h
  | cons a t ih =>
    cases hd : devMatches a ip mac with
    | true =>
      have hsome : match_known (a :: t) ip mac = some a := by
        rcases Bool.or_eq_true_iff.mp hd with h1 | h2
        · simp [match_known, h1]
        · by_cases h1 : ipMatches a ip = true
          · simp [match_known, h1]
          · simp [match_known, h1, h2]
      refine ⟨?_, ?_⟩
      · simp only [hsome]
        constructor
        · intro h; exact absurd h (by simp)
        · intro h
          have := h a (by simp)
          rw [hd] at this; exact absurd this (by simp)
      · intro k hk
        rw [hsome] at hk
        obtain rfl : a = k := by injection hk
        exact ⟨hd, [], t, rfl, by intro k' h'; simp at h'⟩
    | false =>
      have h1 : ipMatches a ip = false := by
        rcases Bool.or_eq_false_iff.mp hd with ⟨h1, _⟩
        exact h1
      have h2 : macMatches a (macNOf mac) = false := by
        rcases Bool.or_eq_false_iff.mp hd with ⟨_, h2⟩
        exact h2
      have hstep : match_known (a :: t) ip mac = match_known t ip mac := by
        simp [match_known, h1, h2]
      refine ⟨?_, ?_⟩
      · rw [hstep]
        constructor
        · intro h k hk
          rcases List.mem_cons.mp hk with rfl | hk'
          · exact hd
          · exact (ih.1.mp h) k hk'
        · intro h
          exact ih.1.mpr (fun k hk => h k (List.mem_cons_of_mem a hk))
      · intro k hk
        rw [hstep] at hk
        obtain ⟨hm, pre, post, happ, hpre⟩ := ih.2 k hk
        refine ⟨hm, a :: pre, post, by rw [happ, List.cons_append], ?_⟩
        intro k' hk'
        rcases List.mem_cons.mp hk' with rfl | hk''
        · exact hd
        · exact hpre k' hk''

/-- C2 witness: with two devices whose match.ip both equal the observed IP,
match_known returns the earlier-declared one, it matches, and nothing before
it matches. -/
theorem c2_witness :
    devMatches ⟨"first", some "10.0.0.9", none, [], ""⟩ "10.0.0.9" none = true ∧
    ∃ pre post,
      [(⟨"first", some "10.0.0.9", none, [], ""⟩ : KnownDevice),
       ⟨"second", some "10.0.0.9", none, [], ""⟩] =
        pre ++ (⟨"first", some "10.0.0.9", none, [], ""⟩ : KnownDevice) :: post ∧
      ∀ k' ∈ pre, devMatches k' "10.0.0.9" none = false := by
  exact (c2_match_order
    [⟨"first", some "10.0.0.9", none, [], ""⟩, ⟨"second", some "10.0.0.9", none, [], ""⟩]
    "10.0.0.9" none).2 ⟨"first", some "10.0.0.9", none, [], ""⟩ rfl

/-- C7 counterexample: the claim says every value handed to a caller from the
discovery cache is an independent copy of the stored slot, but the fresh-cycle
path of discover stores `res` in the slot and returns the same object: the
returned id equals the post-state slot id.  (Concrete heap: slot object 5,
allocation counter 6.) -/
theorem c7_counterexample :
    (discover_fresh_ref ⟨5, 6⟩).1 = (discover_fresh_ref ⟨5, 6⟩).2.slotId ∧
    ¬ (discover_fresh_ref ⟨5, 6⟩).1 ≠ (discover_fresh_ref ⟨5, 6⟩).2.slotId := by
  decide

/-- C7 amended: get_cached_discovery and the cache-hit path of discover return
deep copies independent of the cache slot (the returned object id differs from
the slot id), but a fresh discover cycle returns the very object it stored in
the cache, so caller mutations of a fresh result do reach the cached state. -/
theorem c7_copy_semantics (h : CacheHeap) (hlive : h.slotId < h.nextId) :
    (get_cached_discovery_ref h).1 ≠ (get_cached_discovery_ref h).2.slotId ∧
    (discover_cache_hit_ref h).1 ≠ (discover_cache_hit_ref h).2.slotId ∧
    (discover_fresh_ref h).1 = (discover_fresh_ref h).2.slotId := by
  refine ⟨?_, ?_, rfl⟩ <;>
    simp only [get_cached_discovery_ref, discover_cache_hit_ref, allocDeepCopy] <;>
    omega

/-- C7 witness: on a live heap with slot object 3 and allocation counter 7,
both copying paths return an object distinct from the slot and the fresh path
returns the slot object itself. -/
theorem c7_witness :
    (get_cached_discovery_ref ⟨3, 7⟩).1 ≠ (get_cached_discovery_ref ⟨3, 7⟩).2.slotId ∧
    (discover_cache_hit_ref ⟨3, 7⟩).1 ≠ (discover_cache_hit_ref ⟨3, 7⟩).2.slotId ∧
    (discover_fresh_ref ⟨3, 7⟩).1 = (discover_fresh_ref ⟨3, 7⟩).2.slotId :=
  c7_copy_semantics ⟨3, 7⟩ (by decide)

end Netdash
